import Mathlib

/-!
Verification development for the stream quantization core of an animation
compression library.  The definitions below are a shallow embedding of
`includes/acl/compression/stream/quantize_streams.h` (the fixed-rate batch
quantizers, the variable-rate search driver and the `quantize_streams`
dispatch) and of `includes/acl/math/quat_64.h` (`quat_lerp`, `quat_normalize`).

External collaborators that the header consults but whose sources are not part
of the package under inspection (track stream store, packers, bit-rate table,
clip sampling, the skeletal error metric) are modelled from the specification;
each such definition carries a doc comment saying so.  Machine floats are
idealized as rationals (for the driver, where only orderings and equalities
matter) and as reals (for the quaternion math, where square roots appear).
-/

namespace aclq

/-- Rotation formats of the data model, from the spec's tagged variant list.
Modelled from the spec: the enumeration `RotationFormat8` lives in a header
that is not part of the sources under inspection. -/
inductive RotationFormat8 where
  | Quat_128
  | QuatDropW_96
  | QuatDropW_48
  | QuatDropW_32
  | QuatDropW_Variable
deriving DecidableEq, Repr, Inhabited

/-- Translation/vector formats.  Modelled from the spec: the enumeration
`VectorFormat8` lives in a header that is not part of the sources under
inspection. -/
inductive VectorFormat8 where
  | Vector3_96
  | Vector3_48
  | Vector3_32
  | Vector3_Variable
deriving DecidableEq, Repr, Inhabited

/-- Rotation variants (full quaternion vs drop-w).  Modelled from the spec
glossary: the variant determines which highest precision representative is
used for constant tracks. -/
inductive RotationVariant8 where
  | Quat
  | QuatDropW
deriving DecidableEq, Repr, Inhabited

/-- Modelled from the spec: a rotation format is variable exactly when it is
the `QuatDropW_Variable` tag. -/
def is_rotation_format_variable (f : RotationFormat8) : Bool :=
  match f with
  | .QuatDropW_Variable => true
  | _ => false

/-- Modelled from the spec: a vector format is variable exactly when it is the
`Vector3_Variable` tag. -/
def is_vector_format_variable (f : VectorFormat8) : Bool :=
  match f with
  | .Vector3_Variable => true
  | _ => false

/-- Modelled from the spec: the variant family a rotation format belongs to. -/
def get_rotation_variant (f : RotationFormat8) : RotationVariant8 :=
  match f with
  | .Quat_128 => .Quat
  | _ => .QuatDropW

/-- Modelled from the spec: the highest precision representative of a rotation
variant, used for constant rotation tracks. -/
def get_highest_variant_precision (v : RotationVariant8) : RotationFormat8 :=
  match v with
  | .Quat => .Quat_128
  | .QuatDropW => .QuatDropW_96

/-- Modelled from the spec: each rotation format pins a packed sample size in
bytes (four 32-bit floats, three 32-bit floats, three 16-bit components,
11/11/10 bits; the variable form is never passed to this map by the code). -/
def get_packed_rotation_size (f : RotationFormat8) : Nat :=
  match f with
  | .Quat_128 => 16
  | .QuatDropW_96 => 12
  | .QuatDropW_48 => 6
  | .QuatDropW_32 => 4
  | .QuatDropW_Variable => 0

/-- Modelled from the spec: each vector format pins a packed sample size. -/
def get_packed_vector_size (f : VectorFormat8) : Nat :=
  match f with
  | .Vector3_96 => 12
  | .Vector3_48 => 6
  | .Vector3_32 => 4
  | .Vector3_Variable => 0

/-- A four-component value (`Quat_32` / `Vector4_32` payloads), idealized over
the rationals. -/
structure Vec4 where
  x : ℚ
  y : ℚ
  z : ℚ
  w : ℚ
deriving DecidableEq, Repr, Inhabited

/-- Symbolic output of the rotation packers.  Modelled from the spec: the
packers are pure functions of the input value and of the format or explicit
bit count, so their output is recorded symbolically as the pair of the packer
identity and the packed value; `invalid` marks the precondition-failure branch
of the format dispatch (a `*_Variable` request). -/
inductive PackedQuat where
  | rawQ (q : Vec4)
  | p128 (q : Vec4)
  | p96 (q : Vec4)
  | p48 (q : Vec4)
  | p32 (q : Vec4)
  | pN (bits : Nat) (q : Vec4)
  | invalid
deriving DecidableEq, Repr, Inhabited

/-- Symbolic output of the vector packers, mirroring `PackedQuat`. -/
inductive PackedVec where
  | rawV (v : Vec4)
  | q96 (v : Vec4)
  | q48 (v : Vec4)
  | q32 (v : Vec4)
  | qN (bits : Nat) (v : Vec4)
  | invalid
deriving DecidableEq, Repr, Inhabited

/-- Reading a sample back as the pre-quantization float type
(`get_raw_sample`).  Modelled from the spec: this accessor is used only on
raw, unquantized streams, where it returns the stored value; on packed
payloads the model returns the value that was packed (the byte reinterpretation
is never exercised by the embedded code paths, all of which quantize from raw
streams). -/
def PackedQuat.rawValue : PackedQuat → Vec4
  | .rawQ q => q
  | .p128 q => q
  | .p96 q => q
  | .p48 q => q
  | .p32 q => q
  | .pN _ q => q
  | .invalid => default

/-- Vector counterpart of `PackedQuat.rawValue`. -/
def PackedVec.rawValue : PackedVec → Vec4
  | .rawV v => v
  | .q96 v => v
  | .q48 v => v
  | .q32 v => v
  | .qN _ v => v
  | .invalid => default

/-- A rotation track stream.  Modelled from the spec's track stream store: a
buffer of equal-width samples with format tag, bit-rate index (meaningful for
the variable format, defaulting to 0 at construction), sample rate and sample
count (the length of `samples`). -/
structure RotationTrackStream where
  samples : List PackedQuat
  sample_size : Nat
  sample_rate : Nat
  format : RotationFormat8
  bit_rate : Nat
deriving DecidableEq, Repr, Inhabited

/-- A translation track stream, mirroring `RotationTrackStream`. -/
structure TranslationTrackStream where
  samples : List PackedVec
  sample_size : Nat
  sample_rate : Nat
  format : VectorFormat8
  bit_rate : Nat
deriving DecidableEq, Repr, Inhabited

/-- Per-bone container: rotation and translation tracks plus the
default/constant flags, from the spec's data model (this version of the code
carries no scale track). -/
structure BoneStreams where
  rotations : RotationTrackStream
  translations : TranslationTrackStream
  is_rotation_constant : Bool
  is_rotation_default : Bool
  is_translation_constant : Bool
  is_translation_default : Bool
deriving DecidableEq, Repr, Inhabited

/-- Deep copy of a per-bone container (`BoneStreams::duplicate`).  In a pure
value model a deep copy is the identity. -/
def BoneStreams.duplicate (b : BoneStreams) : BoneStreams := b

/-- A bone stream is rotation-animated when it is neither default nor
constant. -/
def BoneStreams.is_rotation_animated (b : BoneStreams) : Bool :=
  !b.is_rotation_default && !b.is_rotation_constant

/-- A bone stream is translation-animated when it is neither default nor
constant. -/
def BoneStreams.is_translation_animated (b : BoneStreams) : Bool :=
  !b.is_translation_default && !b.is_translation_constant

/-- A local-space affine transform of a pose entry. -/
structure Transform_32 where
  rotation : Vec4
  translation : Vec4
deriving DecidableEq, Repr, Inhabited

/-- A pose: a parallel array of transforms indexed by bone. -/
abbrev Pose := List Transform_32

/-- Per-stream error record filled by the skeletal error-contribution
routine. -/
structure BoneTrackError where
  rotation : ℚ
  translation : ℚ
deriving DecidableEq, Repr, Inhabited

/-- The reference clip interface.  Modelled from the spec: a method to sample
the reference pose at an arbitrary time, a duration and a user error
threshold. -/
structure AnimationClip where
  sample_pose : ℚ → Pose
  duration : ℚ
  error_threshold : ℚ

/-- The rigid skeleton: an ordered bone list where each bone carries a parent
index (none for roots).  Modelled from the spec: children always appear after
their parent in storage order, so every stored parent index is strictly
smaller than the child index; the design notes say implementations assert this
on ingest, and the ancestor walk relies on it to terminate. -/
structure RigidSkeleton where
  parents : List (Option Nat)
  wf : (List.range parents.length).all
      (fun i => match parents.getD i none with
                | some p => decide (p < i)
                | none => true) = true

/-- Parent index of a bone; out-of-range bones are treated as roots
(`INVALID_BONE_INDEX` is modelled as `none`). -/
def RigidSkeleton.parent_index (sk : RigidSkeleton) (b : Nat) : Option Nat :=
  sk.parents.getD b none

/-- The external collaborators of the search driver, modelled from the spec's
interface section: the bit-rate range and bit-count table, the quantized-pose
sampler and the two skeletal error-metric routines.  The error routines take
the raw and lossy poses; the contribution routine additionally takes the bad
bone index, and is read per bone as a `BoneTrackError`. -/
structure CollabEnv where
  LOWEST_BIT_RATE : Nat
  HIGHEST_BIT_RATE : Nat
  get_num_bits_at_bit_rate : Nat → Nat
  sample_streams : List BoneStreams → ℚ → Pose
  calculate_skeleton_error : Pose → Pose → Nat → ℚ
  calculate_skeleton_error_contribution : Pose → Pose → Nat → Nat → BoneTrackError

/-- Track kinds considered by the upgrade walk. -/
inductive AnimationTrackType8 where
  | Rotation
  | Translation
deriving DecidableEq, Repr, Inhabited

/-- The rotation packer dispatch of `quantize_fixed_rotation_stream` (format
form): each format tag invokes the matching packer; the `QuatDropW_Variable`
case is the `ACL_ENSURE(false)` branch, which packs nothing. -/
def pack_rotation (f : RotationFormat8) (q : Vec4) : PackedQuat :=
  match f with
  | .Quat_128 => .p128 q
  | .QuatDropW_96 => .p96 q
  | .QuatDropW_48 => .p48 q
  | .QuatDropW_32 => .p32 q
  | .QuatDropW_Variable => .invalid

/-- The vector packer dispatch of `quantize_fixed_translation_stream` (format
form); the `Vector3_Variable` case is the `ACL_ENSURE(false)` branch. -/
def pack_translation (f : VectorFormat8) (v : Vec4) : PackedVec :=
  match f with
  | .Vector3_96 => .q96 v
  | .Vector3_48 => .q48 v
  | .Vector3_32 => .q32 v
  | .Vector3_Variable => .invalid

/-- `quantize_fixed_rotation_stream` (format form): pack every raw sample with
the requested format into a fresh stream sized for that format; sample rate is
carried over and the bit-rate index takes the constructor default 0. -/
def quantize_fixed_rotation_stream_fmt (raw_stream : RotationTrackStream)
    (rotation_format : RotationFormat8) : RotationTrackStream :=
  { samples := raw_stream.samples.map (fun s => pack_rotation rotation_format s.rawValue)
    sample_size := get_packed_rotation_size rotation_format
    sample_rate := raw_stream.sample_rate
    format := rotation_format
    bit_rate := 0 }

/-- `quantize_fixed_rotation_stream` (bit-rate form): pack every raw sample
with the per-component bit count of the requested bit-rate index; the output
stream is tagged `QuatDropW_Variable` with that bit rate and an 8-byte sample
size. -/
def quantize_fixed_rotation_stream_br (E : CollabEnv) (raw_stream : RotationTrackStream)
    (bit_rate : Nat) : RotationTrackStream :=
  { samples := raw_stream.samples.map
      (fun s => .pN (E.get_num_bits_at_bit_rate bit_rate) s.rawValue)
    sample_size := 8
    sample_rate := raw_stream.sample_rate
    format := .QuatDropW_Variable
    bit_rate := bit_rate }

/-- `quantize_fixed_translation_stream` (format form). -/
def quantize_fixed_translation_stream_fmt (raw_stream : TranslationTrackStream)
    (translation_format : VectorFormat8) : TranslationTrackStream :=
  { samples := raw_stream.samples.map (fun s => pack_translation translation_format s.rawValue)
    sample_size := get_packed_vector_size translation_format
    sample_rate := raw_stream.sample_rate
    format := translation_format
    bit_rate := 0 }

/-- `quantize_fixed_translation_stream` (bit-rate form). -/
def quantize_fixed_translation_stream_br (E : CollabEnv) (raw_stream : TranslationTrackStream)
    (bit_rate : Nat) : TranslationTrackStream :=
  { samples := raw_stream.samples.map
      (fun s => .qN (E.get_num_bits_at_bit_rate bit_rate) s.rawValue)
    sample_size := 8
    sample_rate := raw_stream.sample_rate
    format := .Vector3_Variable
    bit_rate := bit_rate }

/-- `quantize_fixed_rotation_streams` (format form), the batch driver: skip
default tracks; when the variant is variable, keep constant tracks at the
highest precision of the variant, otherwise quantize them like any other track
at the requested format. -/
def quantize_fixed_rotation_streams_fmt (bone_streams : List BoneStreams)
    (rotation_format : RotationFormat8) (is_variable_variant : Bool) : List BoneStreams :=
  let highest_bit_rate := get_highest_variant_precision (get_rotation_variant rotation_format)
  bone_streams.map (fun bone_stream =>
    if bone_stream.is_rotation_default then bone_stream
    else
      let format := if is_variable_variant && bone_stream.is_rotation_constant
                    then highest_bit_rate else rotation_format
      { bone_stream with rotations := quantize_fixed_rotation_stream_fmt bone_stream.rotations format })

/-- `quantize_fixed_rotation_streams` (bit-rate form), the batch driver: skip
default tracks; quantize constant tracks at the highest precision format of
the drop-w variant (via the format form) and every other track at the given
bit rate. -/
def quantize_fixed_rotation_streams_br (E : CollabEnv) (bone_streams : List BoneStreams)
    (bit_rate : Nat) : List BoneStreams :=
  let highest_bit_rate := get_highest_variant_precision .QuatDropW
  bone_streams.map (fun bone_stream =>
    if bone_stream.is_rotation_default then bone_stream
    else if bone_stream.is_rotation_constant then
      { bone_stream with rotations := quantize_fixed_rotation_stream_fmt bone_stream.rotations highest_bit_rate }
    else
      { bone_stream with rotations := quantize_fixed_rotation_stream_br E bone_stream.rotations bit_rate })

/-- `quantize_fixed_translation_streams` (format form), the batch driver: skip
default tracks; constant tracks always store the remaining sample at full
precision `Vector3_96`. -/
def quantize_fixed_translation_streams_fmt (bone_streams : List BoneStreams)
    (translation_format : VectorFormat8) : List BoneStreams :=
  bone_streams.map (fun bone_stream =>
    if bone_stream.is_translation_default then bone_stream
    else
      let format := if bone_stream.is_translation_constant then VectorFormat8.Vector3_96
                    else translation_format
      { bone_stream with translations := quantize_fixed_translation_stream_fmt bone_stream.translations format })

/-- `quantize_fixed_translation_streams` (bit-rate form), the batch driver:
skip default tracks; constant tracks keep full precision `Vector3_96`, other
tracks are quantized at the given bit rate. -/
def quantize_fixed_translation_streams_br (E : CollabEnv) (bone_streams : List BoneStreams)
    (bit_rate : Nat) : List BoneStreams :=
  bone_streams.map (fun bone_stream =>
    if bone_stream.is_translation_default then bone_stream
    else if bone_stream.is_translation_constant then
      { bone_stream with translations := quantize_fixed_translation_stream_fmt bone_stream.translations .Vector3_96 }
    else
      { bone_stream with translations := quantize_fixed_translation_stream_br E bone_stream.translations bit_rate })

/-- Modelled from the spec: `get_animated_num_samples` yields the number of
raw samples in the animated tracks of the array. -/
def get_animated_num_samples (bone_streams : List BoneStreams) : Nat :=
  bone_streams.foldl (fun acc b =>
    max acc (max (if b.is_rotation_animated then b.rotations.samples.length else 0)
                 (if b.is_translation_animated then b.translations.samples.length else 0))) 0

/-- The compile-time policy constant of `quantize_variable_streams`: the search
driver measures against the reference clip, not against the pre-quantization
bone streams. -/
def use_clip_as_ref : Bool := true

/-- The fixed inputs of one invocation of the variable-rate search driver:
external collaborators, the reference clip, the skeleton, the caller's raw
bone streams and the two requested formats. -/
structure SearchCtx where
  E : CollabEnv
  clip : AnimationClip
  skeleton : RigidSkeleton
  raw : List BoneStreams
  rotation_format : RotationFormat8
  translation_format : VectorFormat8

/-- Number of bones, the length of the caller's array. -/
def SearchCtx.num_bones (c : SearchCtx) : Nat := c.raw.length

/-- The clip sample rate, read from the rotation track of bone 0 of the raw
streams (`bone_streams[0].rotations.get_sample_rate()`). -/
def SearchCtx.sample_rate (c : SearchCtx) : ℚ :=
  ((c.raw.getD 0 default).rotations.sample_rate : ℚ)

/-- The sample time of sample index `s`:
`min(float(sample_index) / sample_rate, clip_duration)`. -/
def SearchCtx.sample_time (c : SearchCtx) (s : Nat) : ℚ :=
  min ((s : ℚ) / c.sample_rate) c.clip.duration

/-- The loop-carried state of the search: the working copy of the streams, the
low-resolution bit set, and the last measured error (`none` models the
`FLT_MAX` initialization, strictly above every finite threshold). -/
structure SState where
  quantized : List BoneStreams
  low_res : List Bool
  err : Option ℚ
deriving DecidableEq, Repr, Inhabited

/-- The while-loop guard `error > error_threshold`. -/
def err_gt (e : Option ℚ) (threshold : ℚ) : Bool :=
  match e with
  | none => true
  | some v => decide (v > threshold)

/-- The reference pose of one loop iteration at sample `s`, following the
`use_clip_as_ref` policy constant: the clip is sampled as the truth. -/
def step_raw_pose (c : SearchCtx) (s : Nat) : Pose :=
  if use_clip_as_ref then c.clip.sample_pose (c.sample_time s)
  else c.E.sample_streams c.raw (c.sample_time s)

/-- The lossy pose of one loop iteration: the working quantized streams
sampled with the decoder's sampler. -/
def step_lossy_pose (c : SearchCtx) (quantized : List BoneStreams) (s : Nat) : Pose :=
  c.E.sample_streams quantized (c.sample_time s)

/-- The per-bone skeletal error measured at sample `s` for bone `b`. -/
def step_err (c : SearchCtx) (quantized : List BoneStreams) (s : Nat) (b : Nat) : ℚ :=
  c.E.calculate_skeleton_error (step_raw_pose c s) (step_lossy_pose c quantized s) b

/-- The per-stream error contributions computed from the poses of the sample
where the bad bone was found. -/
def step_contribs (c : SearchCtx) (quantized : List BoneStreams) (s : Nat) (bad_bone : Nat) :
    Nat → BoneTrackError :=
  c.E.calculate_skeleton_error_contribution (step_raw_pose c s) (step_lossy_pose c quantized s)
    bad_bone

/-- The condition of the inner bone scan at sample `s`, bone `b`: the per-bone
error of the current quantized pose against the reference exceeds
`worst_clip_error` (which stays at the error threshold until the scan breaks)
and the bone is not flagged low-resolution. -/
def bad_bone_cond (c : SearchCtx) (quantized : List BoneStreams) (low_res : List Bool)
    (s : Nat) (b : Nat) : Bool :=
  decide (step_err c quantized s b > c.clip.error_threshold) && !(low_res.getD b false)

/-- The double scan of the main loop over the given list of sample indices:
at each sample, find the first bone in storage order meeting
`bad_bone_cond`; as soon as one is found, break out of both loops and report
the pair.  This is the loop specialized at the compile-time policy
`scan_whole_clip_for_bad_bone = false`: `worst_clip_error` is updated only at
the break, so it never influences a later comparison. -/
def scan_go (c : SearchCtx) (quantized : List BoneStreams) (low_res : List Bool) :
    List Nat → Option (Nat × Nat)
  | [] => none
  | s :: rest =>
    match (List.range c.num_bones).find? (fun b => bad_bone_cond c quantized low_res s b) with
    | some b => some (s, b)
    | none => scan_go c quantized low_res rest

/-- The bad-bone scan over the whole clip: sample indices `0` to
`num_samples - 1` where `num_samples = get_animated_num_samples(bone_streams)`
on the raw streams. -/
def scan_bad_bone (c : SearchCtx) (quantized : List BoneStreams) (low_res : List Bool) :
    Option (Nat × Nat) :=
  scan_go c quantized low_res (List.range (get_animated_num_samples c.raw))

/-- Fuel-bounded ancestor walk.  The skeleton invariant (every parent index is
strictly smaller than its child) makes fuel `b + 1` sufficient to reach the
root from bone `b`, which is proven below; the bounded walk then agrees with
the source's unbounded `while` loop. -/
def ancestorChainGo : Nat → RigidSkeleton → Nat → List Nat
  | 0, _, _ => []
  | fuel + 1, sk, b =>
    b :: (match sk.parent_index b with
          | none => []
          | some p => ancestorChainGo fuel sk p)

/-- The chain from a bone up its parent links to the root, in walk order. -/
def ancestorChain (sk : RigidSkeleton) (b : Nat) : List Nat :=
  ancestorChainGo (b + 1) sk b

/-- The error component read by the upgrade walk for a candidate
(bone, track kind) pair. -/
def pair_err (contribs : Nat → BoneTrackError) (p : Nat × AnimationTrackType8) : ℚ :=
  match p.2 with
  | .Rotation => (contribs p.1).rotation
  | .Translation => (contribs p.1).translation

/-- The working-copy bit rate of a candidate (bone, track kind) pair. -/
def pair_bit_rate (quantized : List BoneStreams) (p : Nat × AnimationTrackType8) : Nat :=
  match p.2 with
  | .Rotation => (quantized.getD p.1 default).rotations.bit_rate
  | .Translation => (quantized.getD p.1 default).translations.bit_rate

/-- Eligibility of a candidate pair in the upgrade walk: the requested format
of its track kind is variable and its working-copy bit rate can still be
increased (`can_increase_rotation_precision` and the translation analogue). -/
def pair_eligible (c : SearchCtx) (quantized : List BoneStreams)
    (p : Nat × AnimationTrackType8) : Bool :=
  (match p.2 with
   | .Rotation => is_rotation_format_variable c.rotation_format
   | .Translation => is_vector_format_variable c.translation_format)
    && decide (pair_bit_rate quantized p < c.E.HIGHEST_BIT_RATE)

/-- One candidate check of the upgrade walk: when the pair is eligible and its
error component strictly exceeds the running worst, it becomes the new
target. -/
def stream_candidate (c : SearchCtx) (quantized : List BoneStreams)
    (contribs : Nat → BoneTrackError)
    (acc : Option (Nat × AnimationTrackType8) × ℚ)
    (p : Nat × AnimationTrackType8) : Option (Nat × AnimationTrackType8) × ℚ :=
  if pair_eligible c quantized p && decide (pair_err contribs p > acc.2)
  then (some p, pair_err contribs p) else acc

/-- One bone step of the upgrade walk, checking the rotation stream first and
then the translation stream, exactly as the two if blocks of the source
loop. -/
def upgrade_walk_step (c : SearchCtx) (quantized : List BoneStreams)
    (contribs : Nat → BoneTrackError)
    (acc : Option (Nat × AnimationTrackType8) × ℚ) (b : Nat) :
    Option (Nat × AnimationTrackType8) × ℚ :=
  stream_candidate c quantized contribs
    (stream_candidate c quantized contribs acc (b, .Rotation)) (b, .Translation)

/-- The upgrade-target walk: starting at the bad bone and following parent
links to the root, keep the eligible stream with the strictly largest error
contribution seen so far (`worst_track_error` starts at 0). -/
def find_upgrade_target (c : SearchCtx) (quantized : List BoneStreams)
    (contribs : Nat → BoneTrackError) (bad_bone : Nat) :
    Option (Nat × AnimationTrackType8) :=
  ((ancestorChain c.skeleton bad_bone).foldl (upgrade_walk_step c quantized contribs) (none, 0)).1

/-- Replace the bone at one index of the array, as the in-place mutation
`quantized_streams[i] = ...` does (out-of-range indices leave the array
unchanged). -/
def modifyBone (bs : List BoneStreams) (i : Nat) (f : BoneStreams → BoneStreams) :
    List BoneStreams :=
  bs.set i (f (bs.getD i default))

/-- One iteration of the search driver's main loop.  `none` means the loop
exits here (guard failed, or no bad bone was found); `some` is the next
loop-carried state: either the chosen target track requantized from the raw
input track at the working copy's bit rate plus one, or the bad bone flagged
low-resolution. -/
def searchStep (c : SearchCtx) (st : SState) : Option SState :=
  if err_gt st.err c.clip.error_threshold then
    match scan_bad_bone c st.quantized st.low_res with
    | none => none
    | some (s, bad_bone) =>
      match find_upgrade_target c st.quantized (step_contribs c st.quantized s bad_bone) bad_bone with
      | none =>
        some ⟨st.quantized, st.low_res.set bad_bone true, some (step_err c st.quantized s bad_bone)⟩
      | some (target_bone, .Rotation) =>
        some ⟨modifyBone st.quantized target_bone (fun b =>
                { b with rotations := (quantize_fixed_rotation_stream_br c.E
                    (c.raw.getD target_bone default).rotations
                    ((st.quantized.getD target_bone default).rotations.bit_rate + 1)) }),
              st.low_res, some (step_err c st.quantized s bad_bone)⟩
      | some (target_bone, .Translation) =>
        some ⟨modifyBone st.quantized target_bone (fun b =>
                { b with translations := (quantize_fixed_translation_stream_br c.E
                    (c.raw.getD target_bone default).translations
                    ((st.quantized.getD target_bone default).translations.bit_rate + 1)) }),
              st.low_res, some (step_err c st.quantized s bad_bone)⟩
  else none

/-- Run the search loop for at most `fuel` iterations, stopping when an
iteration exits. -/
def searchRun (c : SearchCtx) : Nat → SState → SState
  | 0, st => st
  | fuel + 1, st =>
    match searchStep c st with
    | none => st
    | some st' => searchRun c fuel st'

/-- Upgrade slack of one bone: how many single-step bit-rate increases its two
tracks can still absorb before reaching `HIGHEST_BIT_RATE`. -/
def boneSlack (E : CollabEnv) (b : BoneStreams) : Nat :=
  (E.HIGHEST_BIT_RATE - b.rotations.bit_rate) + (E.HIGHEST_BIT_RATE - b.translations.bit_rate)

/-- Termination measure of the search loop: total remaining upgrade slack plus
the number of clear low-resolution bits.  Every state-changing iteration
strictly decreases it. -/
def searchMeasure (E : CollabEnv) (st : SState) : Nat :=
  (st.quantized.map (boneSlack E)).sum + st.low_res.count false

/-- initial search state built by the driver: the initialized working copy, an
all-clear bit set sized to the bone count, and the `FLT_MAX` error. -/
def initSState (quantized : List BoneStreams) (num_bones : Nat) : SState :=
  { quantized := quantized, low_res := List.replicate num_bones false, err := none }

/-- The working copy produced by the setup phase of `quantize_variable_streams`:
duplicate every bone stream, then fixed-quantize rotations (at
`LOWEST_BIT_RATE` when the rotation format is variable, else at the fixed
format) and then translations likewise. -/
def initial_quantized_streams (c : SearchCtx) : List BoneStreams :=
  let quantized0 := c.raw.map BoneStreams.duplicate
  let q1 := if is_rotation_format_variable c.rotation_format
            then quantize_fixed_rotation_streams_br c.E quantized0 c.E.LOWEST_BIT_RATE
            else quantize_fixed_rotation_streams_fmt quantized0 c.rotation_format false
  if is_vector_format_variable c.translation_format
  then quantize_fixed_translation_streams_br c.E q1 c.E.LOWEST_BIT_RATE
  else quantize_fixed_translation_streams_fmt q1 c.translation_format

/-- `quantize_variable_streams`, the search driver: set up the working copy,
read the sample rate from bone 0 (the access modelled through `head?`, which
makes the implicit precondition `num_bones >= 1` visible), run the main loop
to completion, and swap the working copy into the caller's array.  The fuel
`searchMeasure` is proven sufficient below, so the bounded run equals the
source's unbounded while loop. -/
def quantize_variable_streams (c : SearchCtx) : Option (List BoneStreams) :=
  let q := initial_quantized_streams c
  match c.raw.head? with
  | none => none
  | some _ =>
    let st0 := initSState q c.num_bones
    some (searchRun c (searchMeasure c.E st0) st0).quantized

/-- Number of state-changing iterations the search loop performs before
exiting, within the given fuel. -/
def searchRunCount (c : SearchCtx) : Nat → SState → SState × Nat
  | 0, st => (st, 0)
  | fuel + 1, st =>
    match searchStep c st with
    | none => (st, 0)
    | some st' =>
      let r := searchRunCount c fuel st'
      (r.1, r.2 + 1)

/-- Sum of the bit-rate indices across a working copy, both track kinds. -/
def sumBitRates (q : List BoneStreams) : Nat :=
  (q.map (fun b => b.rotations.bit_rate + b.translations.bit_rate)).sum

/-- Declarative characterization of the bad-bone scan, following the spec's
words: the first pair of sample index and bone index, in lexicographic order
(samples outer, bones inner), whose per-bone error at sample time
`min(sample_index / sample_rate, clip_duration)` — measured between the
reference clip pose and the sampled working streams — exceeds the error
threshold while the bone's low-resolution bit is clear. -/
def scan_bad_bone_spec (c : SearchCtx) (quantized : List BoneStreams) (low_res : List Bool) :
    Option (Nat × Nat) :=
  ((List.range (get_animated_num_samples c.raw)).flatMap
      (fun s => (List.range c.num_bones).map (fun b => (s, b)))).find?
    (fun p =>
      decide (c.E.calculate_skeleton_error
          (c.clip.sample_pose (min ((p.1 : ℚ) / c.sample_rate) c.clip.duration))
          (c.E.sample_streams quantized (min ((p.1 : ℚ) / c.sample_rate) c.clip.duration))
          p.2 > c.clip.error_threshold)
        && !(low_res.getD p.2 false))

/-- The candidate (bone, track kind) pairs of the upgrade walk, in walk order:
bad bone towards the root, rotation before translation within each bone. -/
def chain_pairs (sk : RigidSkeleton) (bad_bone : Nat) : List (Nat × AnimationTrackType8) :=
  (ancestorChain sk bad_bone).flatMap (fun b => [(b, .Rotation), (b, .Translation)])

/-- Largest value of `val` over a list, floored at `w`. -/
def fold_max (val : α → ℚ) (l : List α) (w : ℚ) : ℚ :=
  l.foldr (fun a m => max (val a) m) w

/-- First element of a list attaining the maximum of `val`, provided that
maximum is strictly positive; ties resolve to the earliest element. -/
def first_argmax_pos (val : α → ℚ) (l : List α) : Option α :=
  if fold_max val l 0 = 0 then none
  else l.find? (fun a => decide (val a = fold_max val l 0))

/-- Declarative characterization of the upgrade-target choice: among the
candidate pairs of the ancestor walk that are eligible (track kind requested
variable and bit rate still below `HIGHEST_BIT_RATE`), the first pair whose
error contribution attains the maximum, provided that maximum is strictly
positive. -/
def find_upgrade_target_spec (c : SearchCtx) (quantized : List BoneStreams)
    (contribs : Nat → BoneTrackError) (bad_bone : Nat) :
    Option (Nat × AnimationTrackType8) :=
  first_argmax_pos (pair_err contribs)
    ((chain_pairs c.skeleton bad_bone).filter (pair_eligible c quantized))

/-- The upgrade-target choice exactly as the claim words it: among the
candidate pairs of the ancestor walk whose bit rate is strictly below
`HIGHEST_BIT_RATE`, the first pair whose error contribution is maximal, with
ties resolved first-seen-wins.  This follows the claim's words (no
strict-positivity requirement and no check that the track kind's requested
format is variable) and is compared with the source walk. -/
def claimed_upgrade_target (c : SearchCtx) (quantized : List BoneStreams)
    (contribs : Nat → BoneTrackError) (bad_bone : Nat) :
    Option (Nat × AnimationTrackType8) :=
  let cands := (chain_pairs c.skeleton bad_bone).filter
    (fun p => decide (pair_bit_rate quantized p < c.E.HIGHEST_BIT_RATE))
  cands.find? (fun p => cands.all (fun q => decide (pair_err contribs q ≤ pair_err contribs p)))

/-- `quantize_streams`, the primary entry point: if either requested format is
variable, run the search driver; otherwise run the fixed-rate batch quantizer
for each track kind (rotations first, then translations). -/
def quantize_streams (E : CollabEnv) (clip : AnimationClip) (skeleton : RigidSkeleton)
    (bone_streams : List BoneStreams) (rotation_format : RotationFormat8)
    (translation_format : VectorFormat8) : Option (List BoneStreams) :=
  if is_rotation_format_variable rotation_format || is_vector_format_variable translation_format then
    quantize_variable_streams
      ⟨E, clip, skeleton, bone_streams, rotation_format, translation_format⟩
  else
    some (quantize_fixed_translation_streams_fmt
      (quantize_fixed_rotation_streams_fmt bone_streams rotation_format false)
      translation_format)

/-- A raw (unquantized) rotation track with `n` identical samples at 30 Hz,
for concrete instantiations. -/
def rawRotTrack (n : Nat) : RotationTrackStream :=
  ⟨List.replicate n (.rawQ default), 16, 30, .Quat_128, 0⟩

/-- A raw (unquantized) translation track with `n` identical samples at 30 Hz,
for concrete instantiations. -/
def rawTransTrack (n : Nat) : TranslationTrackStream :=
  ⟨List.replicate n (.rawV default), 16, 30, .Vector3_96, 0⟩

/-- A one-bone raw stream with the four flags given, for concrete
instantiations. -/
def mkBone (n : Nat) (rc rd tc td : Bool) : BoneStreams :=
  ⟨rawRotTrack n, rawTransTrack n, rc, rd, tc, td⟩

/-- A one-bone skeleton whose only bone is a root. -/
def skel1 : RigidSkeleton := ⟨[none], by decide⟩

/-- A clip with duration 1, error threshold 1 and an empty reference pose. -/
def clipT1 : AnimationClip := ⟨fun _ => [], 1, 1⟩

/-- A collaborator environment with constant error metric outputs, for
concrete instantiations: bit-rate range `L..H`, per-bone error `e`, error
contributions `r` (rotation) and `t` (translation) for every bone. -/
def envConst (L H : Nat) (r t e : ℚ) : CollabEnv :=
  ⟨L, H, fun k => k + 1, fun _ _ => [], fun _ _ _ => e, fun _ _ _ _ => ⟨r, t⟩⟩

/-- Concrete context for the bound counterexample: bit-rate range 2..3, one
bone with a constant rotation track and an animated translation track,
variable rotation format, fixed translation format, per-bone error 10 against
threshold 1, rotation contribution 5. -/
def ctx3 : SearchCtx :=
  ⟨envConst 2 3 5 7 10, clipT1, skel1, [mkBone 1 true false false false],
   .QuatDropW_Variable, .Vector3_96⟩

/-- Initial search state of the bound counterexample. -/
def st3init : SState := initSState (initial_quantized_streams ctx3) ctx3.num_bones

/-- Concrete context for the default-track counterexample: one bone whose
translation track is default (absent, zero samples) while its rotation track
is animated; both formats variable; the error-contribution collaborator
reports a positive translation contribution for the bone. -/
def ctx4 : SearchCtx :=
  ⟨envConst 1 2 0 5 10, clipT1, skel1,
   [⟨rawRotTrack 1, rawTransTrack 0, false, false, false, true⟩],
   .QuatDropW_Variable, .Vector3_Variable⟩

/-- Initial search state of the default-track counterexample. -/
def st4init : SState := initSState (initial_quantized_streams ctx4) ctx4.num_bones

/-- Concrete context for the upgrade-choice counterexample: one bone, both
tracks animated and both formats variable, every error contribution zero. -/
def ctx6 : SearchCtx :=
  ⟨envConst 1 2 0 0 10, clipT1, skel1, [mkBone 1 false false false false],
   .QuatDropW_Variable, .Vector3_Variable⟩

/-- The working copy of the upgrade-choice counterexample, right after
initialization: both tracks at bit rate 1 with `HIGHEST_BIT_RATE = 2`, so both
candidate pairs are eligible. -/
def q6init : List BoneStreams := initial_quantized_streams ctx6

/-- The all-zero error contributions of the upgrade-choice counterexample. -/
def contribs6 : Nat → BoneTrackError := fun _ => ⟨0, 0⟩

/-- A 64-bit four-component vector (`Vector4_64`), doubles idealized as
reals. -/
structure Vector4_64 where
  x : ℝ
  y : ℝ
  z : ℝ
  w : ℝ

/-- A 64-bit quaternion (`Quat_64`), doubles idealized as reals. -/
structure Quat_64 where
  x : ℝ
  y : ℝ
  z : ℝ
  w : ℝ

/-- `quat_to_vector`: reinterpret the four components. -/
def quat_to_vector (q : Quat_64) : Vector4_64 := ⟨q.x, q.y, q.z, q.w⟩

/-- `vector_to_quat`: reinterpret the four components. -/
def vector_to_quat (v : Vector4_64) : Quat_64 := ⟨v.x, v.y, v.z, v.w⟩

/-- Component-wise vector addition (`vector_add`). -/
def vector_add (a b : Vector4_64) : Vector4_64 := ⟨a.x + b.x, a.y + b.y, a.z + b.z, a.w + b.w⟩

/-- Component-wise vector subtraction (`vector_sub`). -/
def vector_sub (a b : Vector4_64) : Vector4_64 := ⟨a.x - b.x, a.y - b.y, a.z - b.z, a.w - b.w⟩

/-- Vector scaled by a scalar (`vector_mul` scalar overload). -/
def vector_mul (a : Vector4_64) (s : ℝ) : Vector4_64 := ⟨a.x * s, a.y * s, a.z * s, a.w * s⟩

/-- `quat_length_squared`: the sum of the squared components. -/
def quat_length_squared (input : Quat_64) : ℝ :=
  input.x * input.x + input.y * input.y + input.z * input.z + input.w * input.w

/-- `quat_length`: the square root of `quat_length_squared`. -/
noncomputable def quat_length (input : Quat_64) : ℝ :=
  Real.sqrt (quat_length_squared input)

/-- `quat_length_reciprocal`: `1.0 / quat_length`. -/
noncomputable def quat_length_reciprocal (input : Quat_64) : ℝ :=
  1 / quat_length input

/-- `quat_normalize`: scale the quaternion by the reciprocal of its length. -/
noncomputable def quat_normalize (input : Quat_64) : Quat_64 :=
  vector_to_quat (vector_mul (quat_to_vector input) (quat_length_reciprocal input))

/-- The linear interpolant of `quat_lerp`:
`start + (end - start) * alpha`, component-wise. -/
def quat_lerp_value (start finish : Quat_64) (alpha : ℝ) : Vector4_64 :=
  vector_add (quat_to_vector start) (vector_mul (vector_sub (quat_to_vector finish) (quat_to_vector start)) alpha)

/-- `quat_lerp`: normalized linear interpolation, the normalization of the
component-wise linear interpolant. -/
noncomputable def quat_lerp (start finish : Quat_64) (alpha : ℝ) : Quat_64 :=
  quat_normalize (vector_to_quat (quat_lerp_value start finish alpha))

/-- Concrete unit quaternion for witness instantiations. -/
def q9a : Quat_64 := ⟨0, 0, 0, 1⟩

/-!  Theorems.  General-purpose list lemmas first, then the characterizations
of the scan and of the upgrade walk, the step and loop lemmas, and finally the
claim theorems with their witnesses and counterexamples. -/

theorem getD_map_lt {α β : Type _} (f : α → β) (d : α) (d' : β) (l : List α) :
    ∀ i, i < l.length → (l.map f).getD i d' = f (l.getD i d) := by
  induction l with
  | nil => intro i h; simp at h
  | cons a l ih =>
    intro i h
    cases i with
    | zero => rfl
    | succ i => simpa using ih i (by simpa using h)

theorem getD_set_self {α : Type _} (a d : α) (l : List α) :
    ∀ i, i < l.length → (l.set i a).getD i d = a := by
  induction l with
  | nil => intro i h; simp at h
  | cons b l ih =>
    intro i h
    cases i with
    | zero => rfl
    | succ i => simpa using ih i (by simpa using h)

theorem getD_set_ne {α : Type _} (a d : α) (l : List α) :
    ∀ i j, j ≠ i → (l.set i a).getD j d = l.getD j d := by
  induction l with
  | nil => intro i j _; simp
  | cons b l ih =>
    intro i j hne
    cases i with
    | zero =>
      cases j with
      | zero => exact absurd rfl hne
      | succ j => simp
    | succ i =>
      cases j with
      | zero => rfl
      | succ j => simpa using ih i j (by omega)

theorem set_oob {α : Type _} (a : α) (l : List α) :
    ∀ i, l.length ≤ i → l.set i a = l := by
  induction l with
  | nil => intro i _; simp
  | cons b l ih =>
    intro i h
    cases i with
    | zero => simp at h
    | succ i => simpa using ih i (by simpa using h)

theorem sum_map_set {α : Type _} (f : α → Nat) (a d : α) (l : List α) :
    ∀ i, i < l.length →
      ((l.set i a).map f).sum + f (l.getD i d) = (l.map f).sum + f a := by
  induction l with
  | nil => intro i h; simp at h
  | cons b l ih =>
    intro i h
    cases i with
    | zero => simp [List.set]; omega
    | succ i =>
      have := ih i (by simpa using h)
      simp only [List.set, List.map_cons, List.sum_cons, List.getD_cons_succ]
      omega

theorem count_false_set (l : List Bool) :
    ∀ i, i < l.length → l.getD i false = false →
      (l.set i true).count false + 1 = l.count false := by
  induction l with
  | nil => intro i h; simp at h
  | cons b l ih =>
    intro i h h0
    cases i with
    | zero =>
      simp only [List.getD_cons_zero] at h0
      subst h0
      simp [List.set, List.count_cons]
    | succ i =>
      have := ih i (by simpa using h) (by simpa using h0)
      simp only [List.set, List.count_cons]
      split <;> omega

theorem getD_replicate {α : Type _} (a d : α) :
    ∀ n i, i < n → (List.replicate n a).getD i d = a := by
  intro n
  induction n with
  | zero => intro i h; simp at h
  | succ n ih =>
    intro i h
    cases i with
    | zero => rfl
    | succ i => simpa [List.replicate] using ih i (by omega)

theorem count_false_replicate : ∀ n, (List.replicate n false).count false = n := by
  intro n
  induction n with
  | zero => rfl
  | succ n ih => simp [List.replicate, List.count_cons, ih]

theorem find?_append_char {α : Type _} (p : α → Bool) (l2 : List α) :
    ∀ l1 : List α, (l1 ++ l2).find? p =
      match l1.find? p with
      | some a => some a
      | none => l2.find? p := by
  intro l1
  induction l1 with
  | nil => simp
  | cons a l1 ih =>
    by_cases h : p a = true
    · simp [List.find?_cons, h]
    · simp only [List.cons_append, List.find?_cons]
      rw [Bool.not_eq_true] at h
      simp [h, ih]

theorem find?_map_char {α β : Type _} (f : α → β) (p : β → Bool) :
    ∀ l : List α, (l.map f).find? p = (l.find? (fun a => p (f a))).map f := by
  intro l
  induction l with
  | nil => simp
  | cons a l ih =>
    by_cases h : p (f a) = true
    · simp [List.find?_cons, h]
    · rw [Bool.not_eq_true] at h
      simp [List.find?_cons, h, ih]

theorem le_fold_max {α : Type _} (val : α → ℚ) (w : ℚ) : ∀ l, w ≤ fold_max val l w := by
  intro l
  induction l with
  | nil => simp [fold_max]
  | cons a l ih => exact le_trans ih (le_max_right _ _)

theorem fold_max_shift {α : Type _} (val : α → ℚ) :
    ∀ (l : List α) (x w : ℚ), w ≤ x → fold_max val l x = max x (fold_max val l w) := by
  intro l
  induction l with
  | nil =>
    intro x w h
    simp only [fold_max, List.foldr_nil]
    exact (max_eq_left h).symm
  | cons a l ih =>
    intro x w h
    show max (val a) (fold_max val l x) = max x (max (val a) (fold_max val l w))
    rw [ih x w h, max_left_comm]

theorem pure_fold_char {α : Type _} (val : α → ℚ) :
    ∀ (l : List α) (t : Option α) (w : ℚ),
      l.foldl (fun acc a => if val a > acc.2 then (some a, val a) else acc) (t, w)
      = ((if fold_max val l w = w then t
          else l.find? (fun a => decide (val a = fold_max val l w))), fold_max val l w) := by
  intro l
  induction l with
  | nil =>
    intro t w
    simp [fold_max]
  | cons a l ih =>
    intro t w
    have hM : fold_max val (a :: l) w = max (val a) (fold_max val l w) := rfl
    have hwm : w ≤ fold_max val l w := le_fold_max val w l
    by_cases hgt : val a > w
    · have hshift : fold_max val l (val a) = max (val a) (fold_max val l w) :=
        fold_max_shift val l (val a) w (le_of_lt hgt)
      have hMgt : w < fold_max val (a :: l) w :=
        lt_of_lt_of_le hgt (hM ▸ le_max_left _ _)
      have hMw : ¬ fold_max val (a :: l) w = w := by
        intro hEq
        exact absurd hEq (ne_of_gt hMgt)
      rw [List.foldl_cons]
      simp only [if_pos hgt]
      rw [ih (some a) (val a)]
      rw [if_neg hMw, List.find?_cons]
      by_cases heq : val a = fold_max val (a :: l) w
      · simp only [hshift, ← hM]
        rw [if_pos heq.symm, decide_eq_true heq]
      · simp only [hshift, ← hM]
        have h2 : ¬ fold_max val (a :: l) w = val a := fun hEq => heq hEq.symm
        rw [if_neg h2, decide_eq_false heq]
    · have hle : val a ≤ w := le_of_not_lt hgt
      have hMeq : fold_max val (a :: l) w = fold_max val l w := by
        rw [hM]
        exact max_eq_right (le_trans hle hwm)
      rw [List.foldl_cons]
      simp only [if_neg hgt]
      rw [ih t w, hMeq]
      by_cases hw : fold_max val l w = w
      · rw [if_pos hw, if_pos hw]
      · rw [if_neg hw, if_neg hw, List.find?_cons]
        have hane : ¬ val a = fold_max val l w := by
          intro hEq
          have : w < fold_max val l w := lt_of_le_of_ne hwm (Ne.symm hw)
          rw [← hEq] at this
          exact absurd this (not_lt.mpr hle)
        have hd : (decide (val a = fold_max val l w)) = false := decide_eq_false hane
        rw [hd]

theorem parent_index_lt (sk : RigidSkeleton) {b p : Nat}
    (h : sk.parent_index b = some p) : p < b := by
  have hb : b < sk.parents.length := by
    by_contra hge
    have hd : sk.parents.getD b none = none := List.getD_eq_default _ _ (by omega)
    rw [RigidSkeleton.parent_index, hd] at h
    exact Option.noConfusion h
  have hall := List.all_eq_true.mp sk.wf b (List.mem_range.mpr hb)
  rw [RigidSkeleton.parent_index] at h
  rw [h] at hall
  exact of_decide_eq_true hall

theorem ancestorChainGo_fuel (sk : RigidSkeleton) :
    ∀ b fuel fuel', b < fuel → b < fuel' →
      ancestorChainGo fuel sk b = ancestorChainGo fuel' sk b := by
  intro b
  induction b using Nat.strong_induction_on with
  | _ b ih =>
    intro fuel fuel' h1 h2
    cases fuel with
    | zero => omega
    | succ f =>
      cases fuel' with
      | zero => omega
      | succ f' =>
        simp only [ancestorChainGo]
        cases hp : sk.parent_index b with
        | none => rfl
        | some p =>
          have hlt := parent_index_lt sk hp
          dsimp only
          rw [ih p hlt f f' (by omega) (by omega)]

theorem ancestorChain_parent_none (sk : RigidSkeleton) (b : Nat)
    (hp : sk.parent_index b = none) : ancestorChain sk b = [b] := by
  unfold ancestorChain
  simp [ancestorChainGo, hp]

theorem ancestorChain_parent_some (sk : RigidSkeleton) (b p : Nat)
    (hp : sk.parent_index b = some p) : ancestorChain sk b = b :: ancestorChain sk p := by
  have h1 : ancestorChain sk b = b :: ancestorChainGo b sk p := by
    unfold ancestorChain
    simp only [ancestorChainGo, hp]
  rw [h1]
  unfold ancestorChain
  rw [ancestorChainGo_fuel sk p b (p + 1) (parent_index_lt sk hp) (Nat.lt_succ_self p)]

theorem ancestorChain_le (sk : RigidSkeleton) :
    ∀ b x, x ∈ ancestorChain sk b → x ≤ b := by
  intro b
  induction b using Nat.strong_induction_on with
  | _ b ih =>
    intro x hx
    cases hp : sk.parent_index b with
    | none =>
      rw [ancestorChain_parent_none sk b hp] at hx
      have := List.mem_singleton.mp hx
      omega
    | some p =>
      have hlt : p < b := parent_index_lt sk hp
      rw [ancestorChain_parent_some sk b p hp] at hx
      rcases List.mem_cons.mp hx with h | h
      · omega
      · have := ih p hlt x h
        omega

theorem foldl_walk_eq_pairs (c : SearchCtx) (q : List BoneStreams)
    (contribs : Nat → BoneTrackError) :
    ∀ (l : List Nat) (acc : Option (Nat × AnimationTrackType8) × ℚ),
      l.foldl (upgrade_walk_step c q contribs) acc
      = (l.flatMap (fun b => [(b, .Rotation), (b, .Translation)])).foldl
          (stream_candidate c q contribs) acc := by
  intro l
  induction l with
  | nil => intro acc; rfl
  | cons b l ih =>
    intro acc
    rw [List.foldl_cons, ih]
    rfl

theorem foldl_candidate_filter (c : SearchCtx) (q : List BoneStreams)
    (contribs : Nat → BoneTrackError) :
    ∀ (l : List (Nat × AnimationTrackType8)) (acc : Option (Nat × AnimationTrackType8) × ℚ),
      l.foldl (stream_candidate c q contribs) acc
      = (l.filter (pair_eligible c q)).foldl
          (fun acc p => if pair_err contribs p > acc.2 then (some p, pair_err contribs p) else acc)
          acc := by
  intro l
  induction l with
  | nil => intro acc; rfl
  | cons p l ih =>
    intro acc
    by_cases he : pair_eligible c q p = true
    · rw [List.foldl_cons, ih, List.filter_cons, if_pos he, List.foldl_cons]
      congr 1
      simp [stream_candidate, he]
    · rw [Bool.not_eq_true] at he
      rw [List.foldl_cons, ih, List.filter_cons, he]
      have hacc : stream_candidate c q contribs acc p = acc := by
        simp [stream_candidate, he]
      rw [if_neg (by simp), hacc]

theorem upgrade_target_char (c : SearchCtx) (q : List BoneStreams)
    (contribs : Nat → BoneTrackError) (bad_bone : Nat) :
    find_upgrade_target c q contribs bad_bone
    = first_argmax_pos (pair_err contribs)
        ((chain_pairs c.skeleton bad_bone).filter (pair_eligible c q)) := by
  unfold find_upgrade_target first_argmax_pos chain_pairs
  rw [foldl_walk_eq_pairs, foldl_candidate_filter, pure_fold_char]

theorem upgrade_target_props (c : SearchCtx) (q : List BoneStreams)
    (contribs : Nat → BoneTrackError) (bad_bone : Nat) (p : Nat × AnimationTrackType8)
    (h : find_upgrade_target c q contribs bad_bone = some p) :
    0 < pair_err contribs p ∧ pair_eligible c q p = true ∧ p.1 ≤ bad_bone := by
  rw [upgrade_target_char] at h
  unfold first_argmax_pos at h
  by_cases h0 : fold_max (pair_err contribs)
      ((chain_pairs c.skeleton bad_bone).filter (pair_eligible c q)) 0 = 0
  · rw [if_pos h0] at h
    exact Option.noConfusion h
  · rw [if_neg h0] at h
    have hmem := List.mem_of_find?_eq_some h
    have hval := List.find?_some h
    have hval' : pair_err contribs p = fold_max (pair_err contribs)
        ((chain_pairs c.skeleton bad_bone).filter (pair_eligible c q)) 0 :=
      of_decide_eq_true hval
    have h0le : (0 : ℚ) ≤ fold_max (pair_err contribs)
        ((chain_pairs c.skeleton bad_bone).filter (pair_eligible c q)) 0 :=
      le_fold_max _ _ _
    refine ⟨?_, ?_, ?_⟩
    · rw [hval']
      exact lt_of_le_of_ne h0le (Ne.symm h0)
    · exact (List.mem_filter.mp hmem).2
    · have hin := (List.mem_filter.mp hmem).1
      unfold chain_pairs at hin
      rcases List.mem_flatMap.mp hin with ⟨b, hb, hpin⟩
      have hble := ancestorChain_le c.skeleton bad_bone b hb
      rcases List.mem_cons.mp hpin with h1 | h1
      · rw [h1]
        exact hble
      · rcases List.mem_cons.mp h1 with h2 | h2
        · rw [h2]
          exact hble
        · exact absurd h2 (List.not_mem_nil p)

theorem find?_pair_map (n s : Nat) (g : Nat → Nat → Bool) :
    ((List.range n).map (fun b => (s, b))).find? (fun p => g p.1 p.2)
    = ((List.range n).find? (fun b => g s b)).map (fun b => (s, b)) := by
  rw [find?_map_char]

theorem scan_go_char (c : SearchCtx) (quantized : List BoneStreams) (low_res : List Bool) :
    ∀ l : List Nat,
      scan_go c quantized low_res l
      = (l.flatMap (fun s => (List.range c.num_bones).map (fun b => (s, b)))).find?
          (fun p => bad_bone_cond c quantized low_res p.1 p.2) := by
  intro l
  induction l with
  | nil => rfl
  | cons s rest ih =>
    simp only [scan_go]
    rw [List.flatMap_cons, find?_append_char,
      find?_pair_map c.num_bones s (bad_bone_cond c quantized low_res)]
    cases hf : (List.range c.num_bones).find? (fun b => bad_bone_cond c quantized low_res s b) with
    | none => simpa using ih
    | some b => rfl

theorem scan_some_props (c : SearchCtx) (quantized : List BoneStreams) (low_res : List Bool)
    (s b : Nat) (h : scan_bad_bone c quantized low_res = some (s, b)) :
    b < c.num_bones ∧ low_res.getD b false = false := by
  unfold scan_bad_bone at h
  rw [scan_go_char] at h
  have hmem := List.mem_of_find?_eq_some h
  have hcond := List.find?_some h
  constructor
  · rcases List.mem_flatMap.mp hmem with ⟨s', _, hpin⟩
    rcases List.mem_map.mp hpin with ⟨b', hb', hEq⟩
    have : b' = b := congrArg Prod.snd hEq
    rw [← this]
    exact List.mem_range.mp hb'
  · unfold bad_bone_cond at hcond
    simp only [Bool.and_eq_true] at hcond
    rcases hcond with ⟨_, hr⟩
    rw [Bool.not_eq_true'] at hr
    exact hr

theorem searchStep_cases (c : SearchCtx) (st st' : SState) (h : searchStep c st = some st') :
    err_gt st.err c.clip.error_threshold = true ∧
    ∃ s bad_bone,
      scan_bad_bone c st.quantized st.low_res = some (s, bad_bone) ∧
      ((find_upgrade_target c st.quantized (step_contribs c st.quantized s bad_bone) bad_bone = none ∧
        st' = ⟨st.quantized, st.low_res.set bad_bone true,
               some (step_err c st.quantized s bad_bone)⟩) ∨
       (∃ tb, find_upgrade_target c st.quantized (step_contribs c st.quantized s bad_bone) bad_bone
              = some (tb, .Rotation) ∧
        st' = ⟨modifyBone st.quantized tb (fun b =>
                 { b with rotations := (quantize_fixed_rotation_stream_br c.E
                     (c.raw.getD tb default).rotations
                     ((st.quantized.getD tb default).rotations.bit_rate + 1)) }),
               st.low_res, some (step_err c st.quantized s bad_bone)⟩) ∨
       (∃ tb, find_upgrade_target c st.quantized (step_contribs c st.quantized s bad_bone) bad_bone
              = some (tb, .Translation) ∧
        st' = ⟨modifyBone st.quantized tb (fun b =>
                 { b with translations := (quantize_fixed_translation_stream_br c.E
                     (c.raw.getD tb default).translations
                     ((st.quantized.getD tb default).translations.bit_rate + 1)) }),
               st.low_res, some (step_err c st.quantized s bad_bone)⟩)) := by
  unfold searchStep at h
  split at h
  · rename_i hgt
    refine ⟨hgt, ?_⟩
    split at h
    · exact Option.noConfusion h
    · rename_i s bad_bone hscan
      refine ⟨s, bad_bone, hscan, ?_⟩
      split at h
      · rename_i htgt
        left
        exact ⟨htgt, (Option.some.injEq _ _ ▸ h).symm⟩
      · rename_i tb htgt
        right; left
        exact ⟨tb, htgt, (Option.some.injEq _ _ ▸ h).symm⟩
      · rename_i tb htgt
        right; right
        exact ⟨tb, htgt, (Option.some.injEq _ _ ▸ h).symm⟩
  · exact Option.noConfusion h

theorem pair_eligible_bit_rate (c : SearchCtx) (q : List BoneStreams)
    (p : Nat × AnimationTrackType8) (h : pair_eligible c q p = true) :
    pair_bit_rate q p < c.E.HIGHEST_BIT_RATE := by
  unfold pair_eligible at h
  simp only [Bool.and_eq_true] at h
  exact of_decide_eq_true h.2

theorem searchStep_len (c : SearchCtx) (st st' : SState) (h : searchStep c st = some st') :
    st'.quantized.length = st.quantized.length ∧ st'.low_res.length = st.low_res.length := by
  obtain ⟨_, s, bad, _, hcase⟩ := searchStep_cases c st st' h
  rcases hcase with ⟨_, hst⟩ | ⟨tb, _, hst⟩ | ⟨tb, _, hst⟩ <;>
    rw [hst] <;> simp [modifyBone]

theorem searchStep_progress (c : SearchCtx) (st st' : SState)
    (hq : st.quantized.length = c.num_bones) (hl : st.low_res.length = c.num_bones)
    (h : searchStep c st = some st') :
    (st'.low_res = st.low_res ∧ sumBitRates st'.quantized = sumBitRates st.quantized + 1 ∧
       ∃ tb, tb < st.quantized.length ∧
         ∀ j, j ≠ tb → st'.quantized.getD j default = st.quantized.getD j default)
    ∨ (st'.quantized = st.quantized ∧
       ∃ i, i < st.low_res.length ∧ st.low_res.getD i false = false ∧
         st'.low_res = st.low_res.set i true) := by
  obtain ⟨hgt, s, bad, hscan, hcase⟩ := searchStep_cases c st st' h
  obtain ⟨hbadlt, hbadclear⟩ := scan_some_props c _ _ s bad hscan
  rcases hcase with ⟨htgt, hst⟩ | ⟨tb, htgt, hst⟩ | ⟨tb, htgt, hst⟩
  · right
    rw [hst]
    exact ⟨rfl, bad, by omega, hbadclear, rfl⟩
  · left
    obtain ⟨hpos, helig, hle⟩ :=
      upgrade_target_props c _ _ bad (tb, .Rotation) htgt
    have htb : tb < st.quantized.length := by omega
    rw [hst]
    refine ⟨rfl, ?_, tb, htb, ?_⟩
    · have hs := sum_map_set (fun b => b.rotations.bit_rate + b.translations.bit_rate)
        ({ st.quantized.getD tb default with
            rotations := (quantize_fixed_rotation_stream_br c.E
              (c.raw.getD tb default).rotations
              ((st.quantized.getD tb default).rotations.bit_rate + 1)) })
        default st.quantized tb htb
      unfold sumBitRates modifyBone
      dsimp only [quantize_fixed_rotation_stream_br] at hs ⊢
      omega
    · intro j hj
      unfold modifyBone
      exact getD_set_ne _ _ _ tb j hj
  · left
    obtain ⟨hpos, helig, hle⟩ :=
      upgrade_target_props c _ _ bad (tb, .Translation) htgt
    have htb : tb < st.quantized.length := by omega
    rw [hst]
    refine ⟨rfl, ?_, tb, htb, ?_⟩
    · have hs := sum_map_set (fun b => b.rotations.bit_rate + b.translations.bit_rate)
        ({ st.quantized.getD tb default with
            translations := (quantize_fixed_translation_stream_br c.E
              (c.raw.getD tb default).translations
              ((st.quantized.getD tb default).translations.bit_rate + 1)) })
        default st.quantized tb htb
      unfold sumBitRates modifyBone
      dsimp only [quantize_fixed_translation_stream_br] at hs ⊢
      omega
    · intro j hj
      unfold modifyBone
      exact getD_set_ne _ _ _ tb j hj

theorem sum_slack_modify (E : CollabEnv) (q : List BoneStreams) (tb : Nat)
    (htb : tb < q.length) (f : BoneStreams → BoneStreams)
    (hf : boneSlack E (f (q.getD tb default)) + 1 = boneSlack E (q.getD tb default)) :
    (List.map (boneSlack E) (modifyBone q tb f)).sum + 1 = (List.map (boneSlack E) q).sum := by
  have hs := sum_map_set (boneSlack E) (f (q.getD tb default)) default q tb htb
  unfold modifyBone
  omega

theorem searchStep_measure_lt (c : SearchCtx) (st st' : SState)
    (hq : st.quantized.length = c.num_bones) (hl : st.low_res.length = c.num_bones)
    (h : searchStep c st = some st') :
    searchMeasure c.E st' < searchMeasure c.E st := by
  obtain ⟨hgt, s, bad, hscan, hcase⟩ := searchStep_cases c st st' h
  obtain ⟨hbadlt, hbadclear⟩ := scan_some_props c _ _ s bad hscan
  rcases hcase with ⟨htgt, hst⟩ | ⟨tb, htgt, hst⟩ | ⟨tb, htgt, hst⟩
  · have hcount := count_false_set st.low_res bad (by omega) hbadclear
    rw [hst]
    unfold searchMeasure
    dsimp only
    omega
  · obtain ⟨hpos, helig, hle⟩ :=
      upgrade_target_props c _ _ bad (tb, .Rotation) htgt
    have hbr := pair_eligible_bit_rate c _ _ helig
    unfold pair_bit_rate at hbr
    dsimp only at hbr
    have htb : tb < st.quantized.length := by omega
    have hsum := sum_slack_modify c.E st.quantized tb htb
      (fun b => { b with rotations := (quantize_fixed_rotation_stream_br c.E
        (c.raw.getD tb default).rotations
        ((st.quantized.getD tb default).rotations.bit_rate + 1)) })
      (by
        unfold boneSlack
        dsimp only [quantize_fixed_rotation_stream_br]
        omega)
    rw [hst]
    unfold searchMeasure
    dsimp only
    omega
  · obtain ⟨hpos, helig, hle⟩ :=
      upgrade_target_props c _ _ bad (tb, .Translation) htgt
    have hbr := pair_eligible_bit_rate c _ _ helig
    unfold pair_bit_rate at hbr
    dsimp only at hbr
    have htb : tb < st.quantized.length := by omega
    have hsum := sum_slack_modify c.E st.quantized tb htb
      (fun b => { b with translations := (quantize_fixed_translation_stream_br c.E
        (c.raw.getD tb default).translations
        ((st.quantized.getD tb default).translations.bit_rate + 1)) })
      (by
        unfold boneSlack
        dsimp only [quantize_fixed_translation_stream_br]
        omega)
    rw [hst]
    unfold searchMeasure
    dsimp only
    omega

theorem searchRun_term (c : SearchCtx) :
    ∀ (fuel : Nat) (st : SState), searchMeasure c.E st ≤ fuel →
      st.quantized.length = c.num_bones → st.low_res.length = c.num_bones →
      searchStep c (searchRun c fuel st) = none := by
  intro fuel
  induction fuel with
  | zero =>
    intro st hm hq hl
    cases hstep : searchStep c st with
    | none => exact hstep
    | some st' =>
      have := searchStep_measure_lt c st st' hq hl hstep
      omega
  | succ fuel ih =>
    intro st hm hq hl
    cases hstep : searchStep c st with
    | none =>
      have hrun : searchRun c (fuel + 1) st = st := by
        simp [searchRun, hstep]
      rw [hrun]
      exact hstep
    | some st' =>
      have hlt := searchStep_measure_lt c st st' hq hl hstep
      have hlen := searchStep_len c st st' hstep
      have hrun : searchRun c (fuel + 1) st = searchRun c fuel st' := by
        simp [searchRun, hstep]
      rw [hrun]
      exact ih st' (by omega) (by omega) (by omega)

theorem modifyBone_keeps_proj {β : Type _} (proj : BoneStreams → β)
    (q : List BoneStreams) (tb b : Nat) (f : BoneStreams → BoneStreams)
    (hf : proj (f (q.getD tb default)) = proj (q.getD tb default)) :
    proj ((modifyBone q tb f).getD b default) = proj (q.getD b default) := by
  unfold modifyBone
  by_cases hb : b = tb
  · subst hb
    by_cases hlen : b < q.length
    · rw [getD_set_self _ _ _ b hlen, hf]
    · rw [set_oob _ _ b (le_of_not_lt hlen)]
  · rw [getD_set_ne _ _ _ tb b hb]

theorem searchStep_keeps_rotations (c : SearchCtx) (st st' : SState) (b : Nat)
    (hcr : ∀ rp lp bb, (c.E.calculate_skeleton_error_contribution rp lp bb b).rotation ≤ 0)
    (h : searchStep c st = some st') :
    (st'.quantized.getD b default).rotations = (st.quantized.getD b default).rotations := by
  obtain ⟨_, s, bad, hscan, hcase⟩ := searchStep_cases c st st' h
  rcases hcase with ⟨_, hst⟩ | ⟨tb, htgt, hst⟩ | ⟨tb, htgt, hst⟩
  · rw [hst]
  · obtain ⟨hpos, _, _⟩ := upgrade_target_props c _ _ bad (tb, .Rotation) htgt
    unfold pair_err at hpos
    dsimp only at hpos
    unfold step_contribs at hpos
    have hne : b ≠ tb := by
      intro hEq
      subst hEq
      exact absurd hpos (not_lt.mpr (hcr _ _ _))
    rw [hst]
    unfold modifyBone
    rw [getD_set_ne _ _ _ tb b hne]
  · rw [hst]
    dsimp only
    apply modifyBone_keeps_proj (fun x => x.rotations)
    rfl

theorem searchStep_keeps_translations (c : SearchCtx) (st st' : SState) (b : Nat)
    (hct : ∀ rp lp bb, (c.E.calculate_skeleton_error_contribution rp lp bb b).translation ≤ 0)
    (h : searchStep c st = some st') :
    (st'.quantized.getD b default).translations = (st.quantized.getD b default).translations := by
  obtain ⟨_, s, bad, hscan, hcase⟩ := searchStep_cases c st st' h
  rcases hcase with ⟨_, hst⟩ | ⟨tb, htgt, hst⟩ | ⟨tb, htgt, hst⟩
  · rw [hst]
  · rw [hst]
    dsimp only
    apply modifyBone_keeps_proj (fun x => x.translations)
    rfl
  · obtain ⟨hpos, _, _⟩ := upgrade_target_props c _ _ bad (tb, .Translation) htgt
    unfold pair_err at hpos
    dsimp only at hpos
    unfold step_contribs at hpos
    have hne : b ≠ tb := by
      intro hEq
      subst hEq
      exact absurd hpos (not_lt.mpr (hct _ _ _))
    rw [hst]
    unfold modifyBone
    rw [getD_set_ne _ _ _ tb b hne]

theorem searchStep_keeps_flags (c : SearchCtx) (st st' : SState) (b : Nat)
    (h : searchStep c st = some st') :
    (st'.quantized.getD b default).is_rotation_constant
      = (st.quantized.getD b default).is_rotation_constant ∧
    (st'.quantized.getD b default).is_rotation_default
      = (st.quantized.getD b default).is_rotation_default ∧
    (st'.quantized.getD b default).is_translation_constant
      = (st.quantized.getD b default).is_translation_constant ∧
    (st'.quantized.getD b default).is_translation_default
      = (st.quantized.getD b default).is_translation_default := by
  obtain ⟨_, s, bad, hscan, hcase⟩ := searchStep_cases c st st' h
  rcases hcase with ⟨_, hst⟩ | ⟨tb, htgt, hst⟩ | ⟨tb, htgt, hst⟩
  · rw [hst]
    exact ⟨rfl, rfl, rfl, rfl⟩
  · rw [hst]
    dsimp only
    refine ⟨?_, ?_, ?_, ?_⟩
    · apply modifyBone_keeps_proj (fun x => x.is_rotation_constant)
      rfl
    · apply modifyBone_keeps_proj (fun x => x.is_rotation_default)
      rfl
    · apply modifyBone_keeps_proj (fun x => x.is_translation_constant)
      rfl
    · apply modifyBone_keeps_proj (fun x => x.is_translation_default)
      rfl
  · rw [hst]
    dsimp only
    refine ⟨?_, ?_, ?_, ?_⟩
    · apply modifyBone_keeps_proj (fun x => x.is_rotation_constant)
      rfl
    · apply modifyBone_keeps_proj (fun x => x.is_rotation_default)
      rfl
    · apply modifyBone_keeps_proj (fun x => x.is_translation_constant)
      rfl
    · apply modifyBone_keeps_proj (fun x => x.is_translation_default)
      rfl

theorem searchRun_keeps_rotations (c : SearchCtx) (b : Nat)
    (hcr : ∀ rp lp bb, (c.E.calculate_skeleton_error_contribution rp lp bb b).rotation ≤ 0) :
    ∀ (fuel : Nat) (st : SState),
      ((searchRun c fuel st).quantized.getD b default).rotations
      = (st.quantized.getD b default).rotations := by
  intro fuel
  induction fuel with
  | zero => intro st; rfl
  | succ fuel ih =>
    intro st
    cases hstep : searchStep c st with
    | none => simp [searchRun, hstep]
    | some st' =>
      have h1 := searchStep_keeps_rotations c st st' b hcr hstep
      have hrun : searchRun c (fuel + 1) st = searchRun c fuel st' := by
        simp [searchRun, hstep]
      rw [hrun, ih st', h1]

theorem searchRun_keeps_translations (c : SearchCtx) (b : Nat)
    (hct : ∀ rp lp bb, (c.E.calculate_skeleton_error_contribution rp lp bb b).translation ≤ 0) :
    ∀ (fuel : Nat) (st : SState),
      ((searchRun c fuel st).quantized.getD b default).translations
      = (st.quantized.getD b default).translations := by
  intro fuel
  induction fuel with
  | zero => intro st; rfl
  | succ fuel ih =>
    intro st
    cases hstep : searchStep c st with
    | none => simp [searchRun, hstep]
    | some st' =>
      have h1 := searchStep_keeps_translations c st st' b hct hstep
      have hrun : searchRun c (fuel + 1) st = searchRun c fuel st' := by
        simp [searchRun, hstep]
      rw [hrun, ih st', h1]

theorem searchRun_keeps_flags (c : SearchCtx) (b : Nat) :
    ∀ (fuel : Nat) (st : SState),
      ((searchRun c fuel st).quantized.getD b default).is_rotation_constant
        = (st.quantized.getD b default).is_rotation_constant ∧
      ((searchRun c fuel st).quantized.getD b default).is_rotation_default
        = (st.quantized.getD b default).is_rotation_default ∧
      ((searchRun c fuel st).quantized.getD b default).is_translation_constant
        = (st.quantized.getD b default).is_translation_constant ∧
      ((searchRun c fuel st).quantized.getD b default).is_translation_default
        = (st.quantized.getD b default).is_translation_default := by
  intro fuel
  induction fuel with
  | zero => intro st; exact ⟨rfl, rfl, rfl, rfl⟩
  | succ fuel ih =>
    intro st
    cases hstep : searchStep c st with
    | none => simp [searchRun, hstep]
    | some st' =>
      obtain ⟨h1, h2, h3, h4⟩ := searchStep_keeps_flags c st st' b hstep
      obtain ⟨g1, g2, g3, g4⟩ := ih st'
      have hrun : searchRun c (fuel + 1) st = searchRun c fuel st' := by
        simp [searchRun, hstep]
      rw [hrun]
      exact ⟨g1.trans h1, g2.trans h2, g3.trans h3, g4.trans h4⟩

theorem len_rot_fmt (bs : List BoneStreams) (rf : RotationFormat8) (v : Bool) :
    (quantize_fixed_rotation_streams_fmt bs rf v).length = bs.length := by
  unfold quantize_fixed_rotation_streams_fmt
  simp

theorem len_rot_br (E : CollabEnv) (bs : List BoneStreams) (n : Nat) :
    (quantize_fixed_rotation_streams_br E bs n).length = bs.length := by
  unfold quantize_fixed_rotation_streams_br
  simp

theorem len_trans_fmt (bs : List BoneStreams) (tf : VectorFormat8) :
    (quantize_fixed_translation_streams_fmt bs tf).length = bs.length := by
  unfold quantize_fixed_translation_streams_fmt
  simp

theorem len_trans_br (E : CollabEnv) (bs : List BoneStreams) (n : Nat) :
    (quantize_fixed_translation_streams_br E bs n).length = bs.length := by
  unfold quantize_fixed_translation_streams_br
  simp

theorem init_len (c : SearchCtx) : (initial_quantized_streams c).length = c.raw.length := by
  unfold initial_quantized_streams
  cases is_rotation_format_variable c.rotation_format <;>
    cases is_vector_format_variable c.translation_format <;>
      simp [len_rot_fmt, len_rot_br, len_trans_fmt, len_trans_br, BoneStreams.duplicate]

theorem map_duplicate (bs : List BoneStreams) : bs.map BoneStreams.duplicate = bs := by
  induction bs with
  | nil => rfl
  | cons b bs ih => simp [BoneStreams.duplicate, ih]

theorem rot_br_keeps_proj {β : Type _} (proj : BoneStreams → β)
    (hpr : ∀ (x : BoneStreams) (s : RotationTrackStream), proj { x with rotations := s } = proj x)
    (E : CollabEnv) (bs : List BoneStreams) (n b : Nat) (hb : b < bs.length) :
    proj ((quantize_fixed_rotation_streams_br E bs n).getD b default)
    = proj (bs.getD b default) := by
  unfold quantize_fixed_rotation_streams_br
  rw [getD_map_lt _ default default bs b hb]
  split
  · rfl
  · split
    · apply hpr
    · apply hpr

theorem rot_fmt_keeps_proj {β : Type _} (proj : BoneStreams → β)
    (hpr : ∀ (x : BoneStreams) (s : RotationTrackStream), proj { x with rotations := s } = proj x)
    (bs : List BoneStreams) (rf : RotationFormat8) (v : Bool) (b : Nat) (hb : b < bs.length) :
    proj ((quantize_fixed_rotation_streams_fmt bs rf v).getD b default)
    = proj (bs.getD b default) := by
  unfold quantize_fixed_rotation_streams_fmt
  rw [getD_map_lt _ default default bs b hb]
  split
  · rfl
  · apply hpr

theorem trans_br_keeps_proj {β : Type _} (proj : BoneStreams → β)
    (hpt : ∀ (x : BoneStreams) (s : TranslationTrackStream), proj { x with translations := s } = proj x)
    (E : CollabEnv) (bs : List BoneStreams) (n b : Nat) (hb : b < bs.length) :
    proj ((quantize_fixed_translation_streams_br E bs n).getD b default)
    = proj (bs.getD b default) := by
  unfold quantize_fixed_translation_streams_br
  rw [getD_map_lt _ default default bs b hb]
  split
  · rfl
  · split
    · apply hpt
    · apply hpt

theorem trans_fmt_keeps_proj {β : Type _} (proj : BoneStreams → β)
    (hpt : ∀ (x : BoneStreams) (s : TranslationTrackStream), proj { x with translations := s } = proj x)
    (bs : List BoneStreams) (tf : VectorFormat8) (b : Nat) (hb : b < bs.length) :
    proj ((quantize_fixed_translation_streams_fmt bs tf).getD b default)
    = proj (bs.getD b default) := by
  unfold quantize_fixed_translation_streams_fmt
  rw [getD_map_lt _ default default bs b hb]
  split
  · rfl
  · apply hpt

theorem rot_br_getD_const (E : CollabEnv) (bs : List BoneStreams) (n b : Nat)
    (hb : b < bs.length)
    (hd : (bs.getD b default).is_rotation_default = false)
    (hc : (bs.getD b default).is_rotation_constant = true) :
    ((quantize_fixed_rotation_streams_br E bs n).getD b default).rotations
    = quantize_fixed_rotation_stream_fmt (bs.getD b default).rotations
        (get_highest_variant_precision .QuatDropW) := by
  unfold quantize_fixed_rotation_streams_br
  rw [getD_map_lt _ default default bs b hb]
  simp only [List.getD_eq_getElem?_getD] at hd hc
  simp [hd, hc]

theorem rot_br_getD_default (E : CollabEnv) (bs : List BoneStreams) (n b : Nat)
    (hb : b < bs.length) (hd : (bs.getD b default).is_rotation_default = true) :
    (quantize_fixed_rotation_streams_br E bs n).getD b default = bs.getD b default := by
  unfold quantize_fixed_rotation_streams_br
  rw [getD_map_lt _ default default bs b hb]
  simp only [List.getD_eq_getElem?_getD] at hd
  simp [hd]

theorem rot_fmt_getD_nondefault (bs : List BoneStreams) (rf : RotationFormat8) (b : Nat)
    (hb : b < bs.length) (hd : (bs.getD b default).is_rotation_default = false) :
    ((quantize_fixed_rotation_streams_fmt bs rf false).getD b default).rotations
    = quantize_fixed_rotation_stream_fmt (bs.getD b default).rotations rf := by
  unfold quantize_fixed_rotation_streams_fmt
  rw [getD_map_lt _ default default bs b hb]
  simp only [List.getD_eq_getElem?_getD] at hd
  simp [hd]

theorem rot_fmt_getD_default (bs : List BoneStreams) (rf : RotationFormat8) (v : Bool) (b : Nat)
    (hb : b < bs.length) (hd : (bs.getD b default).is_rotation_default = true) :
    (quantize_fixed_rotation_streams_fmt bs rf v).getD b default = bs.getD b default := by
  unfold quantize_fixed_rotation_streams_fmt
  rw [getD_map_lt _ default default bs b hb]
  simp only [List.getD_eq_getElem?_getD] at hd
  simp [hd]

theorem trans_br_getD_const (E : CollabEnv) (bs : List BoneStreams) (n b : Nat)
    (hb : b < bs.length)
    (hd : (bs.getD b default).is_translation_default = false)
    (hc : (bs.getD b default).is_translation_constant = true) :
    ((quantize_fixed_translation_streams_br E bs n).getD b default).translations
    = quantize_fixed_translation_stream_fmt (bs.getD b default).translations .Vector3_96 := by
  unfold quantize_fixed_translation_streams_br
  rw [getD_map_lt _ default default bs b hb]
  simp only [List.getD_eq_getElem?_getD] at hd hc
  simp [hd, hc]

theorem trans_br_getD_default (E : CollabEnv) (bs : List BoneStreams) (n b : Nat)
    (hb : b < bs.length) (hd : (bs.getD b default).is_translation_default = true) :
    (quantize_fixed_translation_streams_br E bs n).getD b default = bs.getD b default := by
  unfold quantize_fixed_translation_streams_br
  rw [getD_map_lt _ default default bs b hb]
  simp only [List.getD_eq_getElem?_getD] at hd
  simp [hd]

theorem trans_fmt_getD_const (bs : List BoneStreams) (tf : VectorFormat8) (b : Nat)
    (hb : b < bs.length)
    (hd : (bs.getD b default).is_translation_default = false)
    (hc : (bs.getD b default).is_translation_constant = true) :
    ((quantize_fixed_translation_streams_fmt bs tf).getD b default).translations
    = quantize_fixed_translation_stream_fmt (bs.getD b default).translations .Vector3_96 := by
  unfold quantize_fixed_translation_streams_fmt
  rw [getD_map_lt _ default default bs b hb]
  simp only [List.getD_eq_getElem?_getD] at hd hc
  simp [hd, hc]

theorem trans_fmt_getD_default (bs : List BoneStreams) (tf : VectorFormat8) (b : Nat)
    (hb : b < bs.length) (hd : (bs.getD b default).is_translation_default = true) :
    (quantize_fixed_translation_streams_fmt bs tf).getD b default = bs.getD b default := by
  unfold quantize_fixed_translation_streams_fmt
  rw [getD_map_lt _ default default bs b hb]
  simp only [List.getD_eq_getElem?_getD] at hd
  simp [hd]

theorem init_rot_const (c : SearchCtx) (b : Nat) (hb : b < c.raw.length)
    (hd : (c.raw.getD b default).is_rotation_default = false)
    (hc : (c.raw.getD b default).is_rotation_constant = true) :
    ((initial_quantized_streams c).getD b default).rotations
    = quantize_fixed_rotation_stream_fmt (c.raw.getD b default).rotations
        (if is_rotation_format_variable c.rotation_format = true
         then get_highest_variant_precision RotationVariant8.QuatDropW
         else c.rotation_format) := by
  unfold initial_quantized_streams
  rw [map_duplicate]
  dsimp only
  by_cases hrv : is_rotation_format_variable c.rotation_format = true
  · rw [if_pos hrv, if_pos hrv]
    by_cases htv : is_vector_format_variable c.translation_format = true
    · rw [if_pos htv]
      rw [trans_br_keeps_proj (fun x => x.rotations) (fun x s => rfl) c.E _
        c.E.LOWEST_BIT_RATE b (by rw [len_rot_br]; exact hb)]
      exact rot_br_getD_const c.E c.raw c.E.LOWEST_BIT_RATE b hb hd hc
    · rw [if_neg htv]
      rw [trans_fmt_keeps_proj (fun x => x.rotations) (fun x s => rfl) _
        c.translation_format b (by rw [len_rot_br]; exact hb)]
      exact rot_br_getD_const c.E c.raw c.E.LOWEST_BIT_RATE b hb hd hc
  · rw [if_neg hrv, if_neg hrv]
    by_cases htv : is_vector_format_variable c.translation_format = true
    · rw [if_pos htv]
      rw [trans_br_keeps_proj (fun x => x.rotations) (fun x s => rfl) c.E _
        c.E.LOWEST_BIT_RATE b (by rw [len_rot_fmt]; exact hb)]
      exact rot_fmt_getD_nondefault c.raw c.rotation_format b hb hd
    · rw [if_neg htv]
      rw [trans_fmt_keeps_proj (fun x => x.rotations) (fun x s => rfl) _
        c.translation_format b (by rw [len_rot_fmt]; exact hb)]
      exact rot_fmt_getD_nondefault c.raw c.rotation_format b hb hd

theorem init_trans_const (c : SearchCtx) (b : Nat) (hb : b < c.raw.length)
    (hd : (c.raw.getD b default).is_translation_default = false)
    (hc : (c.raw.getD b default).is_translation_constant = true) :
    ((initial_quantized_streams c).getD b default).translations
    = quantize_fixed_translation_stream_fmt (c.raw.getD b default).translations
        .Vector3_96 := by
  unfold initial_quantized_streams
  rw [map_duplicate]
  dsimp only
  by_cases hrv : is_rotation_format_variable c.rotation_format = true
  · rw [if_pos hrv]
    have hd2 : ((quantize_fixed_rotation_streams_br c.E c.raw c.E.LOWEST_BIT_RATE).getD b
        default).is_translation_default = false := by
      rw [rot_br_keeps_proj (fun x => x.is_translation_default) (fun x s => rfl) c.E c.raw
        c.E.LOWEST_BIT_RATE b hb]
      exact hd
    have hc2 : ((quantize_fixed_rotation_streams_br c.E c.raw c.E.LOWEST_BIT_RATE).getD b
        default).is_translation_constant = true := by
      rw [rot_br_keeps_proj (fun x => x.is_translation_constant) (fun x s => rfl) c.E c.raw
        c.E.LOWEST_BIT_RATE b hb]
      exact hc
    have hraw : ((quantize_fixed_rotation_streams_br c.E c.raw c.E.LOWEST_BIT_RATE).getD b
        default).translations = (c.raw.getD b default).translations :=
      rot_br_keeps_proj (fun x => x.translations) (fun x s => rfl) c.E c.raw
        c.E.LOWEST_BIT_RATE b hb
    by_cases htv : is_vector_format_variable c.translation_format = true
    · rw [if_pos htv]
      rw [trans_br_getD_const c.E _ c.E.LOWEST_BIT_RATE b (by rw [len_rot_br]; exact hb) hd2 hc2]
      rw [hraw]
    · rw [if_neg htv]
      rw [trans_fmt_getD_const _ c.translation_format b (by rw [len_rot_br]; exact hb) hd2 hc2]
      rw [hraw]
  · rw [if_neg hrv]
    have hd2 : ((quantize_fixed_rotation_streams_fmt c.raw c.rotation_format false).getD b
        default).is_translation_default = false := by
      rw [rot_fmt_keeps_proj (fun x => x.is_translation_default) (fun x s => rfl) c.raw
        c.rotation_format false b hb]
      exact hd
    have hc2 : ((quantize_fixed_rotation_streams_fmt c.raw c.rotation_format false).getD b
        default).is_translation_constant = true := by
      rw [rot_fmt_keeps_proj (fun x => x.is_translation_constant) (fun x s => rfl) c.raw
        c.rotation_format false b hb]
      exact hc
    have hraw : ((quantize_fixed_rotation_streams_fmt c.raw c.rotation_format false).getD b
        default).translations = (c.raw.getD b default).translations :=
      rot_fmt_keeps_proj (fun x => x.translations) (fun x s => rfl) c.raw
        c.rotation_format false b hb
    by_cases htv : is_vector_format_variable c.translation_format = true
    · rw [if_pos htv]
      rw [trans_br_getD_const c.E _ c.E.LOWEST_BIT_RATE b (by rw [len_rot_fmt]; exact hb) hd2 hc2]
      rw [hraw]
    · rw [if_neg htv]
      rw [trans_fmt_getD_const _ c.translation_format b (by rw [len_rot_fmt]; exact hb) hd2 hc2]
      rw [hraw]

theorem init_rot_default (c : SearchCtx) (b : Nat) (hb : b < c.raw.length)
    (hd : (c.raw.getD b default).is_rotation_default = true) :
    ((initial_quantized_streams c).getD b default).rotations
    = (c.raw.getD b default).rotations := by
  unfold initial_quantized_streams
  rw [map_duplicate]
  dsimp only
  by_cases hrv : is_rotation_format_variable c.rotation_format = true
  · rw [if_pos hrv]
    by_cases htv : is_vector_format_variable c.translation_format = true
    · rw [if_pos htv]
      rw [trans_br_keeps_proj (fun x => x.rotations) (fun x s => rfl) c.E _
        c.E.LOWEST_BIT_RATE b (by rw [len_rot_br]; exact hb)]
      rw [rot_br_getD_default c.E c.raw c.E.LOWEST_BIT_RATE b hb hd]
    · rw [if_neg htv]
      rw [trans_fmt_keeps_proj (fun x => x.rotations) (fun x s => rfl) _
        c.translation_format b (by rw [len_rot_br]; exact hb)]
      rw [rot_br_getD_default c.E c.raw c.E.LOWEST_BIT_RATE b hb hd]
  · rw [if_neg hrv]
    by_cases htv : is_vector_format_variable c.translation_format = true
    · rw [if_pos htv]
      rw [trans_br_keeps_proj (fun x => x.rotations) (fun x s => rfl) c.E _
        c.E.LOWEST_BIT_RATE b (by rw [len_rot_fmt]; exact hb)]
      rw [rot_fmt_getD_default c.raw c.rotation_format false b hb hd]
    · rw [if_neg htv]
      rw [trans_fmt_keeps_proj (fun x => x.rotations) (fun x s => rfl) _
        c.translation_format b (by rw [len_rot_fmt]; exact hb)]
      rw [rot_fmt_getD_default c.raw c.rotation_format false b hb hd]

theorem init_trans_default (c : SearchCtx) (b : Nat) (hb : b < c.raw.length)
    (hd : (c.raw.getD b default).is_translation_default = true) :
    ((initial_quantized_streams c).getD b default).translations
    = (c.raw.getD b default).translations := by
  unfold initial_quantized_streams
  rw [map_duplicate]
  dsimp only
  by_cases hrv : is_rotation_format_variable c.rotation_format = true
  · rw [if_pos hrv]
    have hd2 : ((quantize_fixed_rotation_streams_br c.E c.raw c.E.LOWEST_BIT_RATE).getD b
        default).is_translation_default = true := by
      rw [rot_br_keeps_proj (fun x => x.is_translation_default) (fun x s => rfl) c.E c.raw
        c.E.LOWEST_BIT_RATE b hb]
      exact hd
    have hraw : ((quantize_fixed_rotation_streams_br c.E c.raw c.E.LOWEST_BIT_RATE).getD b
        default).translations = (c.raw.getD b default).translations :=
      rot_br_keeps_proj (fun x => x.translations) (fun x s => rfl) c.E c.raw
        c.E.LOWEST_BIT_RATE b hb
    by_cases htv : is_vector_format_variable c.translation_format = true
    · rw [if_pos htv]
      rw [trans_br_getD_default c.E _ c.E.LOWEST_BIT_RATE b (by rw [len_rot_br]; exact hb) hd2]
      rw [hraw]
    · rw [if_neg htv]
      rw [trans_fmt_getD_default _ c.translation_format b (by rw [len_rot_br]; exact hb) hd2]
      rw [hraw]
  · rw [if_neg hrv]
    have hd2 : ((quantize_fixed_rotation_streams_fmt c.raw c.rotation_format false).getD b
        default).is_translation_default = true := by
      rw [rot_fmt_keeps_proj (fun x => x.is_translation_default) (fun x s => rfl) c.raw
        c.rotation_format false b hb]
      exact hd
    have hraw : ((quantize_fixed_rotation_streams_fmt c.raw c.rotation_format false).getD b
        default).translations = (c.raw.getD b default).translations :=
      rot_fmt_keeps_proj (fun x => x.translations) (fun x s => rfl) c.raw
        c.rotation_format false b hb
    by_cases htv : is_vector_format_variable c.translation_format = true
    · rw [if_pos htv]
      rw [trans_br_getD_default c.E _ c.E.LOWEST_BIT_RATE b (by rw [len_rot_fmt]; exact hb) hd2]
      rw [hraw]
    · rw [if_neg htv]
      rw [trans_fmt_getD_default _ c.translation_format b (by rw [len_rot_fmt]; exact hb) hd2]
      rw [hraw]

theorem init_keeps_flag {β : Type _} (proj : BoneStreams → β)
    (hpr : ∀ (x : BoneStreams) (s : RotationTrackStream), proj { x with rotations := s } = proj x)
    (hpt : ∀ (x : BoneStreams) (s : TranslationTrackStream), proj { x with translations := s } = proj x)
    (c : SearchCtx) (b : Nat) (hb : b < c.raw.length) :
    proj ((initial_quantized_streams c).getD b default) = proj (c.raw.getD b default) := by
  unfold initial_quantized_streams
  rw [map_duplicate]
  dsimp only
  by_cases hrv : is_rotation_format_variable c.rotation_format = true
  · rw [if_pos hrv]
    by_cases htv : is_vector_format_variable c.translation_format = true
    · rw [if_pos htv]
      rw [trans_br_keeps_proj proj hpt c.E _ c.E.LOWEST_BIT_RATE b (by rw [len_rot_br]; exact hb)]
      exact rot_br_keeps_proj proj hpr c.E c.raw c.E.LOWEST_BIT_RATE b hb
    · rw [if_neg htv]
      rw [trans_fmt_keeps_proj proj hpt _ c.translation_format b (by rw [len_rot_br]; exact hb)]
      exact rot_br_keeps_proj proj hpr c.E c.raw c.E.LOWEST_BIT_RATE b hb
  · rw [if_neg hrv]
    by_cases htv : is_vector_format_variable c.translation_format = true
    · rw [if_pos htv]
      rw [trans_br_keeps_proj proj hpt c.E _ c.E.LOWEST_BIT_RATE b (by rw [len_rot_fmt]; exact hb)]
      exact rot_fmt_keeps_proj proj hpr c.raw c.rotation_format false b hb
    · rw [if_neg htv]
      rw [trans_fmt_keeps_proj proj hpt _ c.translation_format b (by rw [len_rot_fmt]; exact hb)]
      exact rot_fmt_keeps_proj proj hpr c.raw c.rotation_format false b hb

/-- C1: `quantize_streams` dispatches on the requested formats: when neither
the rotation nor the translation format is variable, it runs only the
fixed-rate batch quantizer for each track kind (rotations at
`rotation_format`, then translations at `translation_format`) and returns;
when either format is variable it runs the search driver
`quantize_variable_streams` instead. -/
theorem C1_dispatch (E : CollabEnv) (clip : AnimationClip) (skeleton : RigidSkeleton)
    (bone_streams : List BoneStreams) (rf : RotationFormat8) (tf : VectorFormat8) :
    (is_rotation_format_variable rf = false → is_vector_format_variable tf = false →
      quantize_streams E clip skeleton bone_streams rf tf
      = some (quantize_fixed_translation_streams_fmt
          (quantize_fixed_rotation_streams_fmt bone_streams rf false) tf)) ∧
    ((is_rotation_format_variable rf = true ∨ is_vector_format_variable tf = true) →
      quantize_streams E clip skeleton bone_streams rf tf
      = quantize_variable_streams ⟨E, clip, skeleton, bone_streams, rf, tf⟩) := by
  constructor
  · intro h1 h2
    unfold quantize_streams
    rw [h1, h2]
    rfl
  · intro h
    unfold quantize_streams
    rcases h with h | h <;> rw [h] <;> simp

theorem C1_dispatch_witness :
    quantize_streams (envConst 1 2 0 0 0) clipT1 skel1 [mkBone 1 false false false false]
      .Quat_128 .Vector3_96
    = some (quantize_fixed_translation_streams_fmt
        (quantize_fixed_rotation_streams_fmt [mkBone 1 false false false false] .Quat_128 false)
        .Vector3_96) ∧
    quantize_streams (envConst 1 2 0 0 0) clipT1 skel1 [mkBone 1 false false false false]
      .QuatDropW_Variable .Vector3_96
    = quantize_variable_streams
        ⟨envConst 1 2 0 0 0, clipT1, skel1, [mkBone 1 false false false false],
         .QuatDropW_Variable, .Vector3_96⟩ :=
  ⟨(C1_dispatch (envConst 1 2 0 0 0) clipT1 skel1 [mkBone 1 false false false false]
      .Quat_128 .Vector3_96).1 rfl rfl,
   (C1_dispatch (envConst 1 2 0 0 0) clipT1 skel1 [mkBone 1 false false false false]
      .QuatDropW_Variable .Vector3_96).2 (Or.inl rfl)⟩

/-- C5: in each main-loop iteration, the bad-bone scan equals the declarative
first-hit search: it walks samples outer, bones inner (storage order, parents
before children), uses the sample time
`min(sample_index / sample_rate, clip_duration)`, samples the reference clip
(not the pre-quantization bone streams) as the truth pose, and returns the
first pair whose per-bone error exceeds the running `worst_clip_error`
(initialized to the error threshold) with a clear low-resolution bit, breaking
out of both loops at that first candidate rather than taking a global arg-max
over the clip. -/
theorem C5_scan_first_offender (c : SearchCtx) (quantized : List BoneStreams)
    (low_res : List Bool) :
    scan_bad_bone c quantized low_res = scan_bad_bone_spec c quantized low_res := by
  unfold scan_bad_bone scan_bad_bone_spec
  rw [scan_go_char]
  rfl

/-- C6 (amended): the upgrade target is chosen by walking from the bad bone up
the parent chain and taking, among pairs that are eligible — the track kind's
requested format is variable AND the bit rate is strictly below
`HIGHEST_BIT_RATE` — the first pair attaining the maximal `error_per_stream`
component, provided that maximum is strictly positive; when every eligible
pair has a non-positive contribution, no target is selected. -/
theorem C6_amended_upgrade_choice (c : SearchCtx) (q : List BoneStreams)
    (contribs : Nat → BoneTrackError) (bad_bone : Nat) :
    find_upgrade_target c q contribs bad_bone
    = find_upgrade_target_spec c q contribs bad_bone := by
  unfold find_upgrade_target_spec
  exact upgrade_target_char c q contribs bad_bone

/-- C6 counterexample: with every error contribution equal to zero and both
candidate pairs of the one-bone chain eligible by bit rate, the source walk
selects no pair at all, while the claim's selection rule (first maximal pair
among those with bit rate below `HIGHEST_BIT_RATE`, ties first-seen-wins)
selects the bad bone's rotation stream. -/
theorem C6_counterexample :
    find_upgrade_target ctx6 q6init contribs6 0 = none ∧
    claimed_upgrade_target ctx6 q6init contribs6 0 = some (0, .Rotation) ∧
    (chain_pairs ctx6.skeleton 0).filter
      (fun p => decide (pair_bit_rate q6init p < ctx6.E.HIGHEST_BIT_RATE)) ≠ [] :=
  ⟨by decide, by decide, by decide⟩

/-- C7: once a bad bone is found, if the walk picks a target (bone, kind), the
step requantizes exactly that track, reading the samples from the caller's
original raw `bone_streams` track (not from the already-quantized working
copy), at the working copy's current bit rate plus one; if the walk finds no
target, the step sets the bad bone's previously clear low-resolution bit and
changes no track. -/
theorem C7_upgrade_from_raw (c : SearchCtx) (st : SState) (s bad_bone : Nat)
    (hgt : err_gt st.err c.clip.error_threshold = true)
    (hscan : scan_bad_bone c st.quantized st.low_res = some (s, bad_bone)) :
    (find_upgrade_target c st.quantized (step_contribs c st.quantized s bad_bone) bad_bone = none →
      searchStep c st = some ⟨st.quantized, st.low_res.set bad_bone true,
        some (step_err c st.quantized s bad_bone)⟩) ∧
    (∀ tb, find_upgrade_target c st.quantized (step_contribs c st.quantized s bad_bone) bad_bone
        = some (tb, .Rotation) →
      searchStep c st = some ⟨modifyBone st.quantized tb (fun b =>
          { b with rotations := (quantize_fixed_rotation_stream_br c.E
              (c.raw.getD tb default).rotations
              ((st.quantized.getD tb default).rotations.bit_rate + 1)) }),
        st.low_res, some (step_err c st.quantized s bad_bone)⟩) ∧
    (∀ tb, find_upgrade_target c st.quantized (step_contribs c st.quantized s bad_bone) bad_bone
        = some (tb, .Translation) →
      searchStep c st = some ⟨modifyBone st.quantized tb (fun b =>
          { b with translations := (quantize_fixed_translation_stream_br c.E
              (c.raw.getD tb default).translations
              ((st.quantized.getD tb default).translations.bit_rate + 1)) }),
        st.low_res, some (step_err c st.quantized s bad_bone)⟩) := by
  refine ⟨?_, ?_, ?_⟩
  · intro htgt
    unfold searchStep
    rw [if_pos hgt, hscan]
    dsimp only
    rw [htgt]
  · intro tb htgt
    unfold searchStep
    rw [if_pos hgt, hscan]
    dsimp only
    rw [htgt]
  · intro tb htgt
    unfold searchStep
    rw [if_pos hgt, hscan]
    dsimp only
    rw [htgt]

theorem C7_upgrade_from_raw_witness :
    searchStep ctx3 st3init = some ⟨modifyBone st3init.quantized 0 (fun b =>
        { b with rotations := (quantize_fixed_rotation_stream_br ctx3.E
            (ctx3.raw.getD 0 default).rotations
            ((st3init.quantized.getD 0 default).rotations.bit_rate + 1)) }),
      st3init.low_res, some (step_err ctx3 st3init.quantized 0 0)⟩ :=
  (C7_upgrade_from_raw ctx3 st3init 0 0 (by decide) (by decide)).2.1 0 (by decide)

/-- C8: `quantize_streams` is deterministic — two runs on equal inputs (same
collaborators, clip, skeleton, bone streams and formats) produce equal output
bone-stream arrays. -/
theorem C8_deterministic (E1 E2 : CollabEnv) (c1 c2 : AnimationClip)
    (s1 s2 : RigidSkeleton) (b1 b2 : List BoneStreams) (r1 r2 : RotationFormat8)
    (t1 t2 : VectorFormat8) (hE : E1 = E2) (hc : c1 = c2) (hs : s1 = s2) (hb : b1 = b2)
    (hr : r1 = r2) (ht : t1 = t2) :
    quantize_streams E1 c1 s1 b1 r1 t1 = quantize_streams E2 c2 s2 b2 r2 t2 := by
  subst hE hc hs hb hr ht
  rfl

theorem C8_deterministic_witness :
    quantize_streams (envConst 2 3 5 7 10) clipT1 skel1 [mkBone 1 true false false false]
      .QuatDropW_Variable .Vector3_96
    = quantize_streams (envConst 2 3 5 7 10) clipT1 skel1 [mkBone 1 true false false false]
      .QuatDropW_Variable .Vector3_96 :=
  C8_deterministic (envConst 2 3 5 7 10) (envConst 2 3 5 7 10) clipT1 clipT1 skel1 skel1
    [mkBone 1 true false false false] [mkBone 1 true false false false]
    .QuatDropW_Variable .QuatDropW_Variable .Vector3_96 .Vector3_96
    rfl rfl rfl rfl rfl rfl

/-- C10: the variable path unconditionally reads the sample rate from
`bone_streams[0].rotations`, so it requires at least one bone: on the empty
array the modelled access yields `none` and the driver reports no result,
while any array with at least one bone yields a result. -/
theorem C10_variable_needs_bone (E : CollabEnv) (clip : AnimationClip)
    (skeleton : RigidSkeleton) (rf : RotationFormat8) (tf : VectorFormat8) :
    quantize_variable_streams ⟨E, clip, skeleton, [], rf, tf⟩ = none ∧
    ((is_rotation_format_variable rf || is_vector_format_variable tf) = true →
      quantize_streams E clip skeleton [] rf tf = none) ∧
    (∀ bone_streams : List BoneStreams, 1 ≤ bone_streams.length →
      (quantize_variable_streams ⟨E, clip, skeleton, bone_streams, rf, tf⟩).isSome = true) := by
  refine ⟨rfl, ?_, ?_⟩
  · intro h
    unfold quantize_streams
    rw [h]
    rfl
  · intro bone_streams hlen
    cases bone_streams with
    | nil => simp at hlen
    | cons b0 rest => rfl

theorem C10_variable_needs_bone_witness :
    quantize_variable_streams
      ⟨envConst 1 2 0 0 0, clipT1, skel1, [], .QuatDropW_Variable, .Vector3_96⟩ = none ∧
    quantize_streams (envConst 1 2 0 0 0) clipT1 skel1 [] .QuatDropW_Variable .Vector3_96 = none ∧
    (quantize_variable_streams
      ⟨envConst 1 2 0 0 0, clipT1, skel1, [mkBone 1 false false false false],
       .QuatDropW_Variable, .Vector3_96⟩).isSome = true :=
  ⟨(C10_variable_needs_bone (envConst 1 2 0 0 0) clipT1 skel1 .QuatDropW_Variable .Vector3_96).1,
   (C10_variable_needs_bone (envConst 1 2 0 0 0) clipT1 skel1 .QuatDropW_Variable .Vector3_96).2.1 rfl,
   (C10_variable_needs_bone (envConst 1 2 0 0 0) clipT1 skel1 .QuatDropW_Variable .Vector3_96).2.2
     [mkBone 1 false false false false] (by decide)⟩

/-- C3 (amended): every state-changing iteration of the search loop either
increases exactly one track's bit-rate index by one (so the sum of bit-rate
indices strictly increases, the bit set unchanged and every other bone
untouched) or newly sets exactly one previously clear low-resolution bit (the
working copy unchanged); the loop reaches a state with no further iteration
within `searchMeasure` state-changing iterations, and the measure of the
driver's initial state is at most
`2 * num_bones * HIGHEST_BIT_RATE + num_bones` — the `LOWEST_BIT_RATE` offset
of the claimed bound is not available because constant and default tracks
enter the search at bit rate 0, below `LOWEST_BIT_RATE`. -/
theorem C3_amended_progress_termination (c : SearchCtx) (st : SState)
    (hq : st.quantized.length = c.num_bones) (hl : st.low_res.length = c.num_bones) :
    (∀ st', searchStep c st = some st' →
      (st'.low_res = st.low_res ∧ sumBitRates st'.quantized = sumBitRates st.quantized + 1 ∧
        ∃ tb, tb < st.quantized.length ∧
          ∀ j, j ≠ tb → st'.quantized.getD j default = st.quantized.getD j default)
      ∨ (st'.quantized = st.quantized ∧
        ∃ i, i < st.low_res.length ∧ st.low_res.getD i false = false ∧
          st'.low_res = st.low_res.set i true)) ∧
    searchStep c (searchRun c (searchMeasure c.E st) st) = none ∧
    searchMeasure c.E (initSState (initial_quantized_streams c) c.num_bones)
      ≤ 2 * c.num_bones * c.E.HIGHEST_BIT_RATE + c.num_bones := by
  refine ⟨?_, ?_, ?_⟩
  · intro st' h
    exact searchStep_progress c st st' hq hl h
  · exact searchRun_term c (searchMeasure c.E st) st le_rfl hq hl
  · unfold searchMeasure initSState
    dsimp only
    have h1 : ∀ q : List BoneStreams,
        (q.map (boneSlack c.E)).sum ≤ 2 * q.length * c.E.HIGHEST_BIT_RATE := by
      intro q
      induction q with
      | nil => simp
      | cons x q ih =>
        simp only [List.map_cons, List.sum_cons, List.length_cons]
        have hx : boneSlack c.E x ≤ 2 * c.E.HIGHEST_BIT_RATE := by
          unfold boneSlack
          omega
        have heq : 2 * (q.length + 1) * c.E.HIGHEST_BIT_RATE
            = 2 * q.length * c.E.HIGHEST_BIT_RATE + 2 * c.E.HIGHEST_BIT_RATE := by ring
        omega
    have h2 := count_false_replicate c.num_bones
    have h3 := h1 (initial_quantized_streams c)
    rw [init_len c] at h3
    unfold SearchCtx.num_bones
    unfold SearchCtx.num_bones at h2
    omega

/-- C3 counterexample: with spec-modelled bit-rate range 2..3, one bone whose
rotation track is constant (entering the search at bit rate 0) and a fixed
translation format, the loop performs 4 state-changing iterations (three
single-step upgrades 0 to 3 and one low-resolution bit set) before exiting,
exceeding the claimed bound
`2 * num_bones * (HIGHEST_BIT_RATE - LOWEST_BIT_RATE) + num_bones = 3`. -/
theorem C3_counterexample :
    (searchRunCount ctx3 10 st3init).2 = 4 ∧
    searchStep ctx3 (searchRunCount ctx3 10 st3init).1 = none ∧
    2 * ctx3.num_bones * (ctx3.E.HIGHEST_BIT_RATE - ctx3.E.LOWEST_BIT_RATE) + ctx3.num_bones
      = 3 :=
  ⟨by decide, by decide, by decide⟩

/-- C2 counterexample: in the all-fixed dispatch path a constant rotation
track is quantized at the requested fixed format, not at the highest-precision
format of its variant — the batch quantizer only pins constant rotation tracks
to the variant's highest precision when the rotation format is variable. -/
theorem C2_counterexample :
    (quantize_streams (envConst 1 2 0 0 0) clipT1 skel1 [mkBone 1 true false false false]
        .QuatDropW_48 .Vector3_96).map (fun l => (l.getD 0 default).rotations.format)
      = some .QuatDropW_48 ∧
    (mkBone 1 true false false false).is_rotation_constant = true ∧
    RotationFormat8.QuatDropW_48
      ≠ get_highest_variant_precision (get_rotation_variant .QuatDropW_48) :=
  ⟨by decide, by decide, by decide⟩

/-- C2 (amended): after `quantize_streams` returns, a constant non-default
translation track has output format `Vector3_96` whatever the requested
formats, and a constant non-default rotation track has the highest-precision
format of the drop-w variant when the requested rotation format is variable
but the requested fixed rotation format otherwise; on the variable path this
assumes the skeletal error-contribution collaborator assigns the bone's
streams no strictly positive contribution (the search walk does not check the
constant flag, so a constant track with positive contribution could be
requantized at a variable bit rate). -/
theorem C2_amended_constant_precision (E : CollabEnv) (clip : AnimationClip)
    (skeleton : RigidSkeleton) (bs : List BoneStreams) (rf : RotationFormat8)
    (tf : VectorFormat8) (b : Nat) (hb : b < bs.length)
    (hcr : ∀ rp lp bb, (E.calculate_skeleton_error_contribution rp lp bb b).rotation ≤ 0)
    (hct : ∀ rp lp bb, (E.calculate_skeleton_error_contribution rp lp bb b).translation ≤ 0)
    (out : List BoneStreams)
    (hout : quantize_streams E clip skeleton bs rf tf = some out) :
    ((bs.getD b default).is_rotation_default = false →
     (bs.getD b default).is_rotation_constant = true →
      (out.getD b default).rotations.format
      = (if is_rotation_format_variable rf = true
         then get_highest_variant_precision RotationVariant8.QuatDropW else rf)) ∧
    ((bs.getD b default).is_translation_default = false →
     (bs.getD b default).is_translation_constant = true →
      (out.getD b default).translations.format = VectorFormat8.Vector3_96) := by
  unfold quantize_streams at hout
  by_cases hv : (is_rotation_format_variable rf || is_vector_format_variable tf) = true
  · rw [if_pos hv] at hout
    cases bs with
    | nil => simp at hb
    | cons b0 rest =>
      have ho : (searchRun ⟨E, clip, skeleton, b0 :: rest, rf, tf⟩
          (searchMeasure E (initSState
            (initial_quantized_streams ⟨E, clip, skeleton, b0 :: rest, rf, tf⟩)
            (b0 :: rest).length))
          (initSState (initial_quantized_streams ⟨E, clip, skeleton, b0 :: rest, rf, tf⟩)
            (b0 :: rest).length)).quantized = out := Option.some.inj hout
      constructor
      · intro hd hc
        rw [← ho]
        rw [searchRun_keeps_rotations ⟨E, clip, skeleton, b0 :: rest, rf, tf⟩ b hcr _ _]
        unfold initSState
        dsimp only
        rw [init_rot_const ⟨E, clip, skeleton, b0 :: rest, rf, tf⟩ b hb hd hc]
        rfl
      · intro hd hc
        rw [← ho]
        rw [searchRun_keeps_translations ⟨E, clip, skeleton, b0 :: rest, rf, tf⟩ b hct _ _]
        unfold initSState
        dsimp only
        rw [init_trans_const ⟨E, clip, skeleton, b0 :: rest, rf, tf⟩ b hb hd hc]
        rfl
  · rw [if_neg hv] at hout
    have ho : quantize_fixed_translation_streams_fmt
        (quantize_fixed_rotation_streams_fmt bs rf false) tf = out := Option.some.inj hout
    have hrf : is_rotation_format_variable rf = false := by
      cases h' : is_rotation_format_variable rf
      · rfl
      · exact absurd (by rw [h']; rfl) hv
    constructor
    · intro hd hc
      rw [← ho]
      rw [trans_fmt_keeps_proj (fun x => x.rotations) (fun x s => rfl) _ tf b
        (by rw [len_rot_fmt]; exact hb)]
      rw [rot_fmt_getD_nondefault bs rf b hb hd, hrf]
      rfl
    · intro hd hc
      have hd2 : ((quantize_fixed_rotation_streams_fmt bs rf false).getD b
          default).is_translation_default = false := by
        rw [rot_fmt_keeps_proj (fun x => x.is_translation_default) (fun x s => rfl) bs rf
          false b hb]
        exact hd
      have hc2 : ((quantize_fixed_rotation_streams_fmt bs rf false).getD b
          default).is_translation_constant = true := by
        rw [rot_fmt_keeps_proj (fun x => x.is_translation_constant) (fun x s => rfl) bs rf
          false b hb]
        exact hc
      rw [← ho]
      rw [trans_fmt_getD_const _ tf b (by rw [len_rot_fmt]; exact hb) hd2 hc2]
      rfl

theorem C2_amended_witness :
    (quantize_streams (envConst 1 2 0 0 0) clipT1 skel1 [mkBone 1 true false true false]
        .QuatDropW_Variable .Vector3_Variable).map
      (fun l => ((l.getD 0 default).rotations.format, (l.getD 0 default).translations.format))
      = some (.QuatDropW_96, .Vector3_96) := by
  cases hq : quantize_streams (envConst 1 2 0 0 0) clipT1 skel1 [mkBone 1 true false true false]
      .QuatDropW_Variable .Vector3_Variable with
  | none => exact absurd hq (by decide)
  | some out =>
    have h := C2_amended_constant_precision (envConst 1 2 0 0 0) clipT1 skel1
      [mkBone 1 true false true false] .QuatDropW_Variable .Vector3_Variable 0 (by decide)
      (fun rp lp bb => le_refl 0) (fun rp lp bb => le_refl 0) out hq
    have h1 := h.1 (by decide) (by decide)
    have h2 := h.2 (by decide) (by decide)
    show some ((out.getD 0 default).rotations.format, (out.getD 0 default).translations.format)
      = some (.QuatDropW_96, .Vector3_96)
    rw [h1, h2]
    rfl

/-- C4 counterexample: the ancestor-walk upgrade step checks only the bit rate
and the variable-format flags, never the default flags, so with both formats
variable and an error-contribution collaborator that blames the bone's default
(absent, zero-sample) translation track, the driver requantizes that default
track from the raw input — on output the default flag still holds but the
track was rebuilt as a `Vector3_Variable` stream, so a quantization routine
was invoked on a default track. -/
theorem C4_counterexample :
    (quantize_streams (envConst 1 2 0 5 10) clipT1 skel1 ctx4.raw
        .QuatDropW_Variable .Vector3_Variable).map
      (fun l => ((l.getD 0 default).is_translation_default, (l.getD 0 default).translations))
      = some (true, ⟨[], 8, 30, .Vector3_Variable, 2⟩) ∧
    (ctx4.raw.getD 0 default).is_translation_default = true ∧
    (ctx4.raw.getD 0 default).translations
      ≠ (⟨[], 8, 30, .Vector3_Variable, 2⟩ : TranslationTrackStream) :=
  ⟨by decide, by decide, by decide⟩

/-- C4 (amended): for every bone whose rotation (respectively translation)
track is flagged default on input, `quantize_streams` leaves that track's
stream untouched and the flag set — provided the error-contribution
collaborator assigns the bone's default track no strictly positive
contribution, since the search walk itself does not consult the default
flags. -/
theorem C4_amended_default_preservation (E : CollabEnv) (clip : AnimationClip)
    (skeleton : RigidSkeleton) (bs : List BoneStreams) (rf : RotationFormat8)
    (tf : VectorFormat8) (b : Nat) (hb : b < bs.length)
    (hcr : ∀ rp lp bb, (E.calculate_skeleton_error_contribution rp lp bb b).rotation ≤ 0)
    (hct : ∀ rp lp bb, (E.calculate_skeleton_error_contribution rp lp bb b).translation ≤ 0)
    (out : List BoneStreams)
    (hout : quantize_streams E clip skeleton bs rf tf = some out) :
    ((bs.getD b default).is_rotation_default = true →
      (out.getD b default).rotations = (bs.getD b default).rotations ∧
      (out.getD b default).is_rotation_default = true) ∧
    ((bs.getD b default).is_translation_default = true →
      (out.getD b default).translations = (bs.getD b default).translations ∧
      (out.getD b default).is_translation_default = true) := by
  unfold quantize_streams at hout
  by_cases hv : (is_rotation_format_variable rf || is_vector_format_variable tf) = true
  · rw [if_pos hv] at hout
    cases bs with
    | nil => simp at hb
    | cons b0 rest =>
      have ho : (searchRun ⟨E, clip, skeleton, b0 :: rest, rf, tf⟩
          (searchMeasure E (initSState
            (initial_quantized_streams ⟨E, clip, skeleton, b0 :: rest, rf, tf⟩)
            (b0 :: rest).length))
          (initSState (initial_quantized_streams ⟨E, clip, skeleton, b0 :: rest, rf, tf⟩)
            (b0 :: rest).length)).quantized = out := Option.some.inj hout
      have hfl := searchRun_keeps_flags ⟨E, clip, skeleton, b0 :: rest, rf, tf⟩ b
        (searchMeasure E (initSState
          (initial_quantized_streams ⟨E, clip, skeleton, b0 :: rest, rf, tf⟩)
          (b0 :: rest).length))
        (initSState (initial_quantized_streams ⟨E, clip, skeleton, b0 :: rest, rf, tf⟩)
          (b0 :: rest).length)
      constructor
      · intro hd
        constructor
        · rw [← ho]
          rw [searchRun_keeps_rotations ⟨E, clip, skeleton, b0 :: rest, rf, tf⟩ b hcr _ _]
          unfold initSState
          dsimp only
          exact init_rot_default ⟨E, clip, skeleton, b0 :: rest, rf, tf⟩ b hb hd
        · rw [← ho]
          rw [hfl.2.1]
          unfold initSState
          dsimp only
          rw [init_keeps_flag (fun x => x.is_rotation_default) (fun x s => rfl) (fun x s => rfl)
            ⟨E, clip, skeleton, b0 :: rest, rf, tf⟩ b hb]
          exact hd
      · intro hd
        constructor
        · rw [← ho]
          rw [searchRun_keeps_translations ⟨E, clip, skeleton, b0 :: rest, rf, tf⟩ b hct _ _]
          unfold initSState
          dsimp only
          exact init_trans_default ⟨E, clip, skeleton, b0 :: rest, rf, tf⟩ b hb hd
        · rw [← ho]
          rw [hfl.2.2.2]
          unfold initSState
          dsimp only
          rw [init_keeps_flag (fun x => x.is_translation_default) (fun x s => rfl) (fun x s => rfl)
            ⟨E, clip, skeleton, b0 :: rest, rf, tf⟩ b hb]
          exact hd
  · rw [if_neg hv] at hout
    have ho : quantize_fixed_translation_streams_fmt
        (quantize_fixed_rotation_streams_fmt bs rf false) tf = out := Option.some.inj hout
    constructor
    · intro hd
      constructor
      · rw [← ho]
        rw [trans_fmt_keeps_proj (fun x => x.rotations) (fun x s => rfl) _ tf b
          (by rw [len_rot_fmt]; exact hb)]
        rw [rot_fmt_getD_default bs rf false b hb hd]
      · rw [← ho]
        rw [trans_fmt_keeps_proj (fun x => x.is_rotation_default) (fun x s => rfl) _ tf b
          (by rw [len_rot_fmt]; exact hb)]
        rw [rot_fmt_keeps_proj (fun x => x.is_rotation_default) (fun x s => rfl) bs rf false b hb]
        exact hd
    · intro hd
      have hd2 : ((quantize_fixed_rotation_streams_fmt bs rf false).getD b
          default).is_translation_default = true := by
        rw [rot_fmt_keeps_proj (fun x => x.is_translation_default) (fun x s => rfl) bs rf
          false b hb]
        exact hd
      constructor
      · rw [← ho]
        rw [trans_fmt_getD_default _ tf b (by rw [len_rot_fmt]; exact hb) hd2]
        exact rot_fmt_keeps_proj (fun x => x.translations) (fun x s => rfl) bs rf false b hb
      · rw [← ho]
        rw [trans_fmt_keeps_proj (fun x => x.is_translation_default) (fun x s => rfl) _ tf b
          (by rw [len_rot_fmt]; exact hb)]
        rw [rot_fmt_keeps_proj (fun x => x.is_translation_default) (fun x s => rfl) bs rf
          false b hb]
        exact hd

theorem C4_amended_witness :
    (quantize_streams (envConst 1 2 0 0 0) clipT1 skel1
        [⟨rawRotTrack 1, rawTransTrack 0, false, true, false, true⟩]
        .QuatDropW_Variable .Vector3_Variable).map
      (fun l => ((l.getD 0 default).rotations, (l.getD 0 default).is_rotation_default,
                 (l.getD 0 default).translations, (l.getD 0 default).is_translation_default))
      = some (rawRotTrack 1, true, rawTransTrack 0, true) := by
  cases hq : quantize_streams (envConst 1 2 0 0 0) clipT1 skel1
      [⟨rawRotTrack 1, rawTransTrack 0, false, true, false, true⟩]
      .QuatDropW_Variable .Vector3_Variable with
  | none => exact absurd hq (by decide)
  | some out =>
    have h := C4_amended_default_preservation (envConst 1 2 0 0 0) clipT1 skel1
      [⟨rawRotTrack 1, rawTransTrack 0, false, true, false, true⟩]
      .QuatDropW_Variable .Vector3_Variable 0 (by decide)
      (fun rp lp bb => le_refl 0) (fun rp lp bb => le_refl 0) out hq
    obtain ⟨h1, h2⟩ := h.1 (by decide)
    obtain ⟨h3, h4⟩ := h.2 (by decide)
    show some ((out.getD 0 default).rotations, (out.getD 0 default).is_rotation_default,
      (out.getD 0 default).translations, (out.getD 0 default).is_translation_default)
      = some (rawRotTrack 1, true, rawTransTrack 0, true)
    rw [h1, h2, h3, h4]
    rfl

theorem C3_amended_witness :
    searchStep ctx3 (searchRun ctx3 (searchMeasure ctx3.E st3init) st3init) = none ∧
    searchMeasure ctx3.E (initSState (initial_quantized_streams ctx3) ctx3.num_bones)
      ≤ 2 * ctx3.num_bones * ctx3.E.HIGHEST_BIT_RATE + ctx3.num_bones :=
  ⟨(C3_amended_progress_termination ctx3 st3init (by decide) (by decide)).2.1,
   (C3_amended_progress_termination ctx3 st3init (by decide) (by decide)).2.2⟩

theorem quat_normalize_unit (v : Vector4_64) (h : v ≠ ⟨0, 0, 0, 0⟩) :
    quat_length (quat_normalize (vector_to_quat v)) = 1 := by
  rcases v with ⟨x, y, z, w⟩
  have hS0 : (0 : ℝ) ≤ x * x + y * y + z * z + w * w :=
    add_nonneg (add_nonneg (add_nonneg (mul_self_nonneg x) (mul_self_nonneg y))
      (mul_self_nonneg z)) (mul_self_nonneg w)
  have hS : 0 < x * x + y * y + z * z + w * w := by
    rcases lt_or_eq_of_le hS0 with hlt | heq
    · exact hlt
    · exfalso
      have hx : x = 0 := by
        have hx2 : x * x = 0 := by
          nlinarith [mul_self_nonneg x, mul_self_nonneg y, mul_self_nonneg z, mul_self_nonneg w]
        exact mul_self_eq_zero.mp hx2
      have hy : y = 0 := by
        have hy2 : y * y = 0 := by
          nlinarith [mul_self_nonneg x, mul_self_nonneg y, mul_self_nonneg z, mul_self_nonneg w]
        exact mul_self_eq_zero.mp hy2
      have hz : z = 0 := by
        have hz2 : z * z = 0 := by
          nlinarith [mul_self_nonneg x, mul_self_nonneg y, mul_self_nonneg z, mul_self_nonneg w]
        exact mul_self_eq_zero.mp hz2
      have hw : w = 0 := by
        have hw2 : w * w = 0 := by
          nlinarith [mul_self_nonneg x, mul_self_nonneg y, mul_self_nonneg z, mul_self_nonneg w]
        exact mul_self_eq_zero.mp hw2
      exact h (by rw [hx, hy, hz, hw])
  have hsq : Real.sqrt (x * x + y * y + z * z + w * w)
      * Real.sqrt (x * x + y * y + z * z + w * w) = x * x + y * y + z * z + w * w :=
    Real.mul_self_sqrt hS0
  have hsqrt_ne : Real.sqrt (x * x + y * y + z * z + w * w) ≠ 0 :=
    ne_of_gt (Real.sqrt_pos.mpr hS)
  unfold quat_length quat_normalize quat_length_reciprocal quat_length quat_length_squared
  unfold vector_to_quat quat_to_vector vector_mul
  dsimp only
  have harg : x * (1 / Real.sqrt (x * x + y * y + z * z + w * w))
        * (x * (1 / Real.sqrt (x * x + y * y + z * z + w * w)))
      + y * (1 / Real.sqrt (x * x + y * y + z * z + w * w))
        * (y * (1 / Real.sqrt (x * x + y * y + z * z + w * w)))
      + z * (1 / Real.sqrt (x * x + y * y + z * z + w * w))
        * (z * (1 / Real.sqrt (x * x + y * y + z * z + w * w)))
      + w * (1 / Real.sqrt (x * x + y * y + z * z + w * w))
        * (w * (1 / Real.sqrt (x * x + y * y + z * z + w * w))) = 1 := by
    field_simp
  rw [harg, Real.sqrt_one]

/-- C9: `quat_lerp` is normalized linear interpolation — it equals
`quat_normalize` applied to the component-wise interpolant
`start + (end - start) * alpha`, and whenever that interpolant is nonzero the
returned quaternion has unit length. -/
theorem C9_quat_lerp_nlerp :
    (∀ (start finish : Quat_64) (alpha : ℝ),
      quat_lerp start finish alpha
      = quat_normalize (vector_to_quat
          ⟨start.x + (finish.x - start.x) * alpha, start.y + (finish.y - start.y) * alpha,
           start.z + (finish.z - start.z) * alpha, start.w + (finish.w - start.w) * alpha⟩)) ∧
    (∀ (start finish : Quat_64) (alpha : ℝ),
      quat_lerp_value start finish alpha ≠ ⟨0, 0, 0, 0⟩ →
      quat_length (quat_lerp start finish alpha) = 1) := by
  constructor
  · intro s f a
    rfl
  · intro s f a h
    exact quat_normalize_unit (quat_lerp_value s f a) h

theorem C9_quat_lerp_nlerp_witness :
    quat_lerp_value q9a q9a (1 / 2) ≠ ⟨0, 0, 0, 0⟩ ∧
    quat_length (quat_lerp q9a q9a (1 / 2)) = 1 := by
  have hne : quat_lerp_value q9a q9a (1 / 2) ≠ ⟨0, 0, 0, 0⟩ := by
    intro hEq
    have hw := congrArg Vector4_64.w hEq
    norm_num [quat_lerp_value, vector_add, vector_mul, vector_sub, quat_to_vector, q9a] at hw
  exact ⟨hne, C9_quat_lerp_nlerp.2 q9a q9a (1 / 2) hne⟩

end aclq
